import Mathlib

/-!
# geektime-downloader: the acquisition orchestrator of `cmd/root.go`

A shallow embedding of the download orchestration in `src/cmd/root.go`:
the artifact bit masks, the per-article fetch sections of `handleDownloadAll`
and `downloadArticle`, the chapter grouping of `loadArticles`, the resume
scanner `findDownloadedArticleFileNames` and the menu functions.

Effects are explicit.  Every call that leaves the program (remote service,
renderer, file system, terminal) is answered by an `Env`, a record of
functions that receive the whole history of events so far, and is logged in
the trace of the state.  Identifiers and menu indices are `Int`; the Go `int`
values that are list lengths, counters and the three-bit artifact masks are
modelled by `Nat`, and the one operation whose result depends on the word size
(`&^`, and-not) is taken in a 64-bit word.  Functions that call each other
without end (the menus) carry fuel, and `Outcome.pending` marks its end.
-/

set_option autoImplicit false

namespace Geektime

/-! ## Data model -/

abbrev Err := String

/-- Modelled from the spec: the type `geektime.Article` is declared outside `src/`;
the fields are the ones `root.go` reads (`AID`, `Title`). -/
structure Article where
  AID : Int
  Title : String
  deriving DecidableEq, Repr

/-- Modelled from the spec: the type `response.Article` is declared outside `src/`;
the fields are the ones `root.go` writes and reads. -/
structure RArticle where
  ArticleID : Int
  ArticleTitle : String
  IndexNo : Nat
  VideoTime : Int := 0
  deriving DecidableEq, Repr

/-- Modelled from the spec: the type `response.Lesson` is declared outside `src/`;
the fields are the ones `root.go` writes and reads. -/
structure Lesson where
  ChapterName : String
  ChapterID : Int
  IndexNo : Nat
  Articles : List RArticle := []
  deriving DecidableEq, Repr

/-- Modelled from the spec: the type `geektime.Product` is declared outside `src/`;
the fields are the ones `root.go` writes and reads. -/
structure Product where
  Access : Bool := false
  ID : Int := 0
  Title : String := ""
  ProductType : String := ""
  Articles : List Article := []
  Lessons : List Lesson := []
  Total : Nat := 0
  deriving DecidableEq, Repr

/-- Modelled from the spec: the answer type of `geektime.PostV3ArticleInfo` is declared
outside `src/`; the fields are the ones `loadArticles` reads (`a.Data.Info`). -/
structure ArticleDetail where
  ID : Int
  Title : String
  ChapterID : Int
  ChapterTitle : String
  deriving DecidableEq, Repr

/-- Modelled from the spec: the type `response.V1ArticleResponse` is declared outside
`src/`; the fields are the ones the fetch sections read (`articleInfo.Data`), and the
default is the Go zero value of the struct. -/
structure ArticleInfo where
  ArticleContent : String := ""
  AudioDownloadURL : String := ""
  deriving DecidableEq, Repr

/-- One entry of `os.ReadDir`. -/
structure DirEntry where
  Name : String
  IsDir : Bool
  deriving DecidableEq, Repr

/-- What `os.ReadDir` finds at a path: no such directory, a directory that
cannot be listed, or the entries of the directory. -/
inductive DirState where
  | missing
  | unreadable (err : Err)
  | entries (files : List DirEntry)
  deriving DecidableEq, Repr

/-- The map `map[string]map[string]struct{}` built by the resume scanner:
an association list from directory name to the names found inside. -/
abbrev Presence := List (String × List String)

/-- The flags of the command line that the orchestrator reads. -/
structure Config where
  columnOutputType : Nat
  downloadFolder : String := ""
  phone : String := ""
  gcid : String := ""
  quality : String := "sd"
  concurrency : Nat := 1
  downloadComments : Bool := true
  deriving DecidableEq, Repr

/-! ## Events and the environment -/

/-- The menus of the program, named by the function that shows the prompt. -/
inductive Menu where
  | selectProductType
  | letInputProductID
  | productOps
  | selectArticle
  deriving DecidableEq, Repr

/-- What the program does to the outside, in the order it does it.
`reportChapter total i name` is the output line of lines 336-337
(`prompt(total, i)` followed by the chapter name), `reportArticle total i title`
the output line of lines 346-347 (`prompt(total, i)` followed by the article
title), `progress total i` a `prompt(total, i)` that nothing follows. -/
inductive Event where
  | reportChapter (total i : Nat) (name : String)
  | reportArticle (total i : Nat) (title : String)
  | progress (total i : Nat)
  | printAll (title : String)
  | printDone (title : String)
  | printNotBought
  | printTypeMismatch (productType : String) (sourceType : Int)
  | spinner (active : Bool)
  | mkdirAll (path : String)
  | readDir (path : String)
  | chromedpRun
  | chromedpCancel
  | printArticlePageToPDF (aid : Int) (dir title : String) (comments : Bool)
  | getArticleInfo (aid : Int)
  | markdownDownload (content title dir : String) (aid : Int) (concurrency : Nat)
  | downloadAudio (url dir title : String)
  | downloadArticleVideo (aid : Int) (sourceType : Int) (dir quality : String) (concurrency : Nat)
  | downloadUniversityVideo (aid : Int) (dir quality : String) (concurrency : Nat)
  | sleepRandom
  | sleepSecond
  | postV1ColumnArticles (id : String)
  | postV3ArticleInfo (aid : Int)
  | postV3ProductInfo (id : Int)
  | postV3ColumnInfo (id : Int)
  | getMyClassProduct (id : Int)
  | select (m : Menu) (items : Nat)
  | input (m : Menu)
  | exit (err : Err)
  deriving DecidableEq, Repr

/-- Modelled from the spec: the answer type of `geektime.PostV3ProductInfo` is declared
outside `src/`; the fields are the ones `letInputProductID` reads
(`productInfo.Data.Info`). -/
structure ProductInfo where
  ProductType : String
  Title : String
  ArticleID : Int
  deriving DecidableEq, Repr

/-- The collaborators.  Each function receives the events so far, so an answer
may depend on everything that has happened; `filenamify`, `join` and the file
extensions are the pure helpers and constants declared outside `src/`. -/
structure Env where
  filenamify : String → String
  join : String → String → String
  pdfExt : String
  mdExt : String
  mp3Ext : String
  tsExt : String
  postV1ColumnArticles : List Event → String → Except Err (List Article)
  postV3ArticleInfo : List Event → Int → Except Err ArticleDetail
  getArticleInfo : List Event → Int → Except Err ArticleInfo
  printArticlePageToPDF : List Event → Int → String → String → Option Err
  markdownDownload : List Event → String → String → String → Int → Option Err
  downloadAudio : List Event → String → String → String → Option Err
  downloadArticleVideo : List Event → Int → Int → String → Option Err
  downloadUniversityVideo : List Event → Int → String → Option Err
  chromedpRun : List Event → Option Err
  mkdirAll : List Event → String → Option Err
  dirState : List Event → String → DirState
  selectRun : List Event → Menu → Nat → Except Err Int
  promptRun : List Event → Menu → Except Err String
  postV3ProductInfo : List Event → Int → Except Err ProductInfo
  postV3ColumnInfo : List Event → Int → Except Err Product
  getMyClassProduct : List Event → Int → Except Err Product

/-! ## The state and the monad of the program -/

/-- The package-level variables that change while the program runs, and the
trace of events. -/
structure St where
  trace : List Event := []
  currentProduct : Product := {}
  sourceType : Int := 0
  deriving DecidableEq, Repr

/-- How a piece of the program ends: it returns, the process exits
(`os.Exit`), the runtime panics, or it is still running when the fuel of the
model is used up. -/
inductive Outcome (α : Type) where
  | ret (a : α)
  | exited
  | panicked
  | pending
  deriving DecidableEq, Repr

/-- A computation over the program state; the state is kept also when the
process exits, so that the trace up to the exit can be read. -/
def M (α : Type) : Type := St → Outcome α × St

def M.pure {α : Type} (a : α) : M α := fun s => (Outcome.ret a, s)

def M.bind {α β : Type} (m : M α) (f : α → M β) : M β := fun s =>
  match m s with
  | (Outcome.ret a, s1) => f a s1
  | (Outcome.exited, s1) => (Outcome.exited, s1)
  | (Outcome.panicked, s1) => (Outcome.panicked, s1)
  | (Outcome.pending, s1) => (Outcome.pending, s1)

instance : Monad M where
  pure := M.pure
  bind := M.bind

/-- Append one event to the trace. -/
def emit (e : Event) : M Unit := fun s => (Outcome.ret (), { s with trace := s.trace ++ [e] })

/-- Log the call `e` and answer it from the history before the call. -/
def call {α : Type} (e : Event) (answer : List Event → α) : M α := fun s =>
  (Outcome.ret (answer s.trace), { s with trace := s.trace ++ [e] })

def getSt : M St := fun s => (Outcome.ret s, s)

def modifySt (f : St → St) : M Unit := fun s => (Outcome.ret (), f s)

def exitNow {α : Type} : M α := fun s => (Outcome.exited, s)

def panicNow {α : Type} : M α := fun s => (Outcome.panicked, s)

def pendingNow {α : Type} : M α := fun s => (Outcome.pending, s)

/-- Modelled from the spec: `checkError` is defined outside `src/`.  Spec, section 7:
every error that is not handled by returning to an earlier menu terminates
the process after printing a diagnostic; a nil error lets the caller go on. -/
def checkError (err : Option Err) : M Unit :=
  match err with
  | none => M.pure ()
  | some e => M.bind (emit (Event.exit e)) (fun _ => exitNow)

/-- The pattern `v, err := f(...); checkError(err)`. -/
def checked {α : Type} (r : Except Err α) : M α :=
  match r with
  | Except.ok a => M.pure a
  | Except.error e => M.bind (emit (Event.exit e)) (fun _ => exitNow)

/-! ## Artifact masks -/

/-- `setBit`: sets the bit at `pos` in `n`. -/
def setBit (n pos : Nat) : Nat := n ||| (1 <<< pos)

/-- Go's `x &^ y` (and-not) on non-negative `int` values, in a 64-bit word. -/
def andNot (x y : Nat) : Nat := x &&& (((2 ^ 64 - 1) ^^^ y) % 2 ^ 64)

/-- The lookup `_, exists := downloaded[dir][name]`; a missing `dir` gives the
nil map, in which nothing exists. -/
def hasFile (downloaded : Presence) (dir name : String) : Bool :=
  match downloaded.lookup dir with
  | some names => names.contains name
  | none => false

/-- The present mask `b` of `handleDownloadAll`, lines 350-359. -/
def presentMask (env : Env) (downloaded : Presence) (chapterName articleTitle : String) : Nat :=
  let b := 0
  let b := if hasFile downloaded chapterName (articleTitle ++ env.pdfExt) then setBit b 0 else b
  let b := if hasFile downloaded chapterName (articleTitle ++ env.mdExt) then setBit b 1 else b
  let b := if hasFile downloaded chapterName (articleTitle ++ env.mp3Ext) then setBit b 2 else b
  b

/-- The test of line 361, `b == columnOutputType`, that guards `continue`. -/
def skipTest (columnOutputType b : Nat) : Bool := b == columnOutputType

/-- The fetch section of `handleDownloadAll`, lines 365-400, for the present
mask `b`: rendering, the shared detail fetch, the text and the audio fetch, the
one `checkError(err)` of line 399 and the random delay. -/
def fetchSection (cfg : Config) (env : Env) (b : Nat) (chapterDir articleTitle : String)
    (a : RArticle) : M Unit := do
  let err : Option Err ←
    if andNot cfg.columnOutputType b &&& 1 == 1 then do
      let err ← call (Event.printArticlePageToPDF a.ArticleID chapterDir articleTitle
        cfg.downloadComments) (fun h => env.printArticlePageToPDF h a.ArticleID chapterDir articleTitle)
      if err ≠ none then do
        emit Event.chromedpCancel
        checkError err
      pure err
    else pure none
  let needDownloadMD := andNot (cfg.columnOutputType >>> 1) (b >>> 1) &&& 1 == 1
  let needDownloadAudio := andNot (cfg.columnOutputType >>> 2) (b >>> 2) &&& 1 == 1
  let articleInfo : ArticleInfo ←
    if needDownloadMD || needDownloadAudio then do
      let r ← call (Event.getArticleInfo a.ArticleID) (fun h => env.getArticleInfo h a.ArticleID)
      checked r
    else pure {}
  let err : Option Err ←
    if needDownloadMD then
      call (Event.markdownDownload articleInfo.ArticleContent articleTitle chapterDir a.ArticleID
        cfg.concurrency) (fun h => env.markdownDownload h articleInfo.ArticleContent articleTitle
          chapterDir a.ArticleID)
    else pure err
  let err : Option Err ←
    if needDownloadAudio then
      call (Event.downloadAudio articleInfo.AudioDownloadURL chapterDir articleTitle)
        (fun h => env.downloadAudio h articleInfo.AudioDownloadURL chapterDir articleTitle)
    else pure err
  checkError err
  emit Event.sleepRandom

/-- The body of the inner loop of the text branch of `handleDownloadAll`,
lines 345-400, for the article `a` and the progress counter `i` before it;
the result is the counter after it. -/
def textArticleBody (cfg : Config) (env : Env) (downloaded : Presence)
    (chapterName chapterDir : String) (i : Nat) (a : RArticle) : M Nat := do
  let i := i + 1
  let s ← getSt
  emit (Event.reportArticle s.currentProduct.Total i a.ArticleTitle)
  let articleTitle := env.filenamify a.ArticleTitle
  let b := presentMask env downloaded chapterName articleTitle
  if skipTest cfg.columnOutputType b then
    return i
  fetchSection cfg env b chapterDir articleTitle a
  return i

/-! ## The single-article path -/

/-- `isText`. -/
def isText (p : Product) : Bool := p.ProductType == "c1" || p.ProductType == "p29"

/-- `isVideo`. -/
def isVideo (p : Product) : Bool :=
  p.ProductType == "c3" || p.ProductType == "u" || p.ProductType == "c6"

/-- `getLesson`: the first lesson that holds an article with id `aid`. -/
def getLesson : List Lesson → Int → Except Err Lesson
  | [], _ => Except.error "not found"
  | l :: ls, aid =>
    if l.Articles.any (fun a => a.ArticleID == aid) then Except.ok l else getLesson ls aid

/-- The text branch of `downloadArticle`, lines 492-536. -/
def downloadArticleText (cfg : Config) (env : Env) (article : Article) (chapterDir : String) :
    M Unit := do
  emit (Event.spinner true)
  let deferred : Bool ←
    if cfg.columnOutputType &&& 1 == 1 then do
      let err ← call Event.chromedpRun (fun h => env.chromedpRun h)
      checkError err
      let err ← call (Event.printArticlePageToPDF article.AID chapterDir article.Title
        cfg.downloadComments) (fun h => env.printArticlePageToPDF h article.AID chapterDir article.Title)
      if err ≠ none then do
        emit (Event.spinner false)
        emit Event.chromedpCancel
        checkError err
      pure true
    else pure false
  let err : Option Err := none
  let needDownloadMD := (cfg.columnOutputType >>> 1) &&& 1 == 1
  let needDownloadAudio := (cfg.columnOutputType >>> 2) &&& 1 == 1
  let articleInfo : ArticleInfo ←
    if needDownloadMD || needDownloadAudio then do
      let r ← call (Event.getArticleInfo article.AID) (fun h => env.getArticleInfo h article.AID)
      checked r
    else pure {}
  let err : Option Err ←
    if needDownloadMD then
      call (Event.markdownDownload articleInfo.ArticleContent article.Title chapterDir article.AID
        cfg.concurrency) (fun h => env.markdownDownload h articleInfo.ArticleContent article.Title
          chapterDir article.AID)
    else pure err
  let err : Option Err ←
    if needDownloadAudio then
      call (Event.downloadAudio articleInfo.AudioDownloadURL chapterDir article.Title)
        (fun h => env.downloadAudio h articleInfo.AudioDownloadURL chapterDir article.Title)
    else pure err
  checkError err
  emit (Event.spinner false)
  if deferred then
    emit Event.chromedpCancel

/-- The video branch of `downloadArticle`, lines 538-544. -/
def downloadArticleVideoBranch (cfg : Config) (env : Env) (article : Article)
    (chapterDir : String) : M Unit := do
  let s ← getSt
  if s.sourceType == 1 then do
    let err ← call (Event.downloadArticleVideo article.AID s.sourceType chapterDir cfg.quality
      cfg.concurrency) (fun h => env.downloadArticleVideo h article.AID s.sourceType chapterDir)
    checkError err
  else if s.sourceType == 5 then do
    let err ← call (Event.downloadUniversityVideo article.AID chapterDir cfg.quality
      cfg.concurrency) (fun h => env.downloadUniversityVideo h article.AID chapterDir)
    checkError err

/-- `downloadArticle`. -/
def downloadArticle (cfg : Config) (env : Env) (article : Article) (projectDir : String) :
    M Unit := do
  let s ← getSt
  let l ← checked (getLesson s.currentProduct.Lessons article.AID)
  let chapterName := env.filenamify (toString l.IndexNo ++ "." ++ l.ChapterName)
  let chapterDir := env.join projectDir chapterName
  let err ← call (Event.mkdirAll chapterDir) (fun h => env.mkdirAll h chapterDir)
  checkError err
  if isText s.currentProduct then
    downloadArticleText cfg env article chapterDir
  else if isVideo s.currentProduct then
    downloadArticleVideoBranch cfg env article chapterDir

/-! ## The resume scanner -/

/-- `os.ReadDir`: a directory that does not exist, or that cannot be read,
gives an error. -/
def osReadDir (d : DirState) : Except Err (List DirEntry) :=
  match d with
  | DirState.missing => Except.error "no such file or directory"
  | DirState.unreadable e => Except.error e
  | DirState.entries files => Except.ok files

/-- The assignment `res[k] = v` on the map. -/
def mapSet (res : Presence) (k : String) (v : List String) : Presence :=
  (k, v) :: res.filter (fun kv => kv.1 != k)

/-- The assignment `set[name] = struct{}{}` on an inner map. -/
def setAdd (names : List String) (name : String) : List String :=
  if names.contains name then names else names ++ [name]

/-- The loop of `findDownloadedArticleFileNames`, lines 605-616, over the
entries that are left, on the file system `fs`. -/
def scanLoop (join : String → String → String) (fs : String → DirState) (projectDir : String) :
    List DirEntry → Presence → Presence × Option Err
  | [], res => (res, none)
  | f :: files, res =>
    let res := mapSet res f.Name []
    if f.IsDir then
      match osReadDir (fs (join projectDir f.Name)) with
      | Except.error err => (res, some err)
      | Except.ok subFiles =>
        scanLoop join fs projectDir files
          (mapSet res f.Name (subFiles.foldl (fun names subFile => setAdd names subFile.Name) []))
    else scanLoop join fs projectDir files res

/-- `findDownloadedArticleFileNames` on the file system `fs`: the map and
the error it returns. -/
def findDownloadedArticleFileNames (join : String → String → String) (fs : String → DirState)
    (projectDir : String) : Presence × Option Err :=
  match osReadDir (fs projectDir) with
  | Except.error err => ([], some err)
  | Except.ok files =>
    if files.length == 0 then ([], none)
    else scanLoop join fs projectDir files []

/-- The path that `mkDownloadProjectDir` makes, lines 621-625. -/
def projectDirOf (cfg : Config) (env : Env) (projectName : String) : String :=
  let userName := if cfg.gcid != "" then cfg.gcid else cfg.phone
  env.join (env.join cfg.downloadFolder userName) (env.filenamify projectName)

/-- `mkDownloadProjectDir`. -/
def mkDownloadProjectDir (cfg : Config) (env : Env) (projectName : String) : M String := do
  let path := projectDirOf cfg env projectName
  let err ← call (Event.mkdirAll path) (fun h => env.mkdirAll h path)
  checkError err
  pure path

/-! ## The hierarchy loader -/

/-- One pass of the loop body of `loadArticles`, lines 460-476, on the lessons
built so far, for the detail record `a` of the article. -/
def groupStep (lessons : List Lesson) (a : ArticleDetail) : List Lesson :=
  let opened : Lesson :=
    { ChapterName := a.ChapterTitle, ChapterID := a.ChapterID, IndexNo := lessons.length + 1 }
  let lessons :=
    match lessons.getLast? with
    | none => lessons ++ [opened]
    | some last => if last.ChapterID != a.ChapterID then lessons ++ [opened] else lessons
  match lessons.getLast? with
  | none => lessons
  | some lesson =>
    let article : RArticle :=
      { ArticleID := a.ID, ArticleTitle := a.Title, IndexNo := lesson.Articles.length + 1 }
    lessons.dropLast ++ [{ lesson with Articles := lesson.Articles ++ [article] }]

/-- The loop of `loadArticles`, lines 456-477. -/
def loadArticlesLoop (env : Env) : List Article → M Unit
  | [] => pure ()
  | article :: articles => do
    let r ← call (Event.postV3ArticleInfo article.AID) (fun h => env.postV3ArticleInfo h article.AID)
    let a ← checked r
    modifySt (fun s => { s with currentProduct :=
      { s.currentProduct with Lessons := groupStep s.currentProduct.Lessons a } })
    loadArticlesLoop env articles

/-- `loadArticles`. -/
def loadArticles (env : Env) : M Unit := do
  let s ← getSt
  if s.currentProduct.Articles.length > 0 then
    return ()
  emit (Event.spinner true)
  let r ← call (Event.postV1ColumnArticles (toString s.currentProduct.ID))
    (fun h => env.postV1ColumnArticles h (toString s.currentProduct.ID))
  let articles ← checked r
  modifySt (fun s => { s with currentProduct :=
    { s.currentProduct with Articles := articles, Total := articles.length } })
  loadArticlesLoop env articles
  emit (Event.spinner false)

/-- The maximal runs of consecutive detail records with the same chapter id,
following the spec: a record opens a new run when the run in front of it has
another chapter id. -/
def chapterRuns : List ArticleDetail → List (List ArticleDetail)
  | [] => []
  | d :: ds =>
    match chapterRuns ds with
    | (e :: run) :: runs =>
      if d.ChapterID = e.ChapterID then (d :: e :: run) :: runs else [d] :: (e :: run) :: runs
    | _ => [[d]]

/-- The articles of a lesson made from a run: the records in order, numbered
from `k + 1`. -/
def runArticles (k : Nat) : List ArticleDetail → List RArticle
  | [] => []
  | d :: ds => { ArticleID := d.ID, ArticleTitle := d.Title, IndexNo := k + 1 } :: runArticles (k + 1) ds

/-- The lessons made from a list of runs, numbered from `j + 1`; a lesson takes
chapter id and title from the first record of its run. -/
def runLessons (j : Nat) : List (List ArticleDetail) → List Lesson
  | [] => []
  | [] :: runs => runLessons j runs
  | (d :: ds) :: runs =>
    { ChapterName := d.ChapterTitle, ChapterID := d.ChapterID, IndexNo := j + 1,
      Articles := runArticles 0 (d :: ds) } :: runLessons (j + 1) runs

/-! ## Download all -/

/-- The inner loop of the text branch of `handleDownloadAll`, lines 344-401. -/
def textArticlesLoop (cfg : Config) (env : Env) (downloaded : Presence)
    (chapterName chapterDir : String) : Nat → List RArticle → M Nat
  | i, [] => pure i
  | i, a :: as => do
    let i ← textArticleBody cfg env downloaded chapterName chapterDir i a
    textArticlesLoop cfg env downloaded chapterName chapterDir i as

/-- The outer loop of the text branch of `handleDownloadAll`, lines 335-402. -/
def textLessonsLoop (cfg : Config) (env : Env) (downloaded : Presence) (projectDir : String) :
    Nat → List Lesson → M Nat
  | i, [] => pure i
  | i, l :: ls => do
    let s ← getSt
    emit (Event.reportChapter s.currentProduct.Total i l.ChapterName)
    let chapterName := env.filenamify (toString l.IndexNo ++ "." ++ l.ChapterName)
    let chapterDir := env.join projectDir chapterName
    let err ← call (Event.mkdirAll chapterDir) (fun h => env.mkdirAll h chapterDir)
    checkError err
    let i ← textArticlesLoop cfg env downloaded chapterName chapterDir i l.Articles
    textLessonsLoop cfg env downloaded projectDir i ls

/-- The body of the inner loop of the video branch, lines 415-431. -/
def videoArticleBody (cfg : Config) (env : Env) (downloaded : Presence)
    (chapterName chapterDir : String) (i : Nat) (a : RArticle) : M Nat := do
  let i := i + 1
  let s ← getSt
  emit (Event.progress s.currentProduct.Total i)
  let articleTitle := env.filenamify a.ArticleTitle ++ env.tsExt
  if hasFile downloaded chapterName articleTitle then
    return i
  if s.sourceType == 1 then do
    let err ← call (Event.downloadArticleVideo a.ArticleID s.sourceType chapterDir cfg.quality
      cfg.concurrency) (fun h => env.downloadArticleVideo h a.ArticleID s.sourceType chapterDir)
    checkError err
    return i
  else if s.sourceType == 5 then do
    if a.VideoTime ≤ 0 then
      return i
    let err ← call (Event.downloadUniversityVideo a.ArticleID chapterDir cfg.quality
      cfg.concurrency) (fun h => env.downloadUniversityVideo h a.ArticleID chapterDir)
    checkError err
    return i
  return i

/-- The inner loop of the video branch of `handleDownloadAll`. -/
def videoArticlesLoop (cfg : Config) (env : Env) (downloaded : Presence)
    (chapterName chapterDir : String) : Nat → List RArticle → M Nat
  | i, [] => pure i
  | i, a :: as => do
    let i ← videoArticleBody cfg env downloaded chapterName chapterDir i a
    videoArticlesLoop cfg env downloaded chapterName chapterDir i as

/-- The outer loop of the video branch of `handleDownloadAll`, lines 405-433. -/
def videoLessonsLoop (cfg : Config) (env : Env) (downloaded : Presence) (projectDir : String) :
    Nat → List Lesson → M Nat
  | i, [] => pure i
  | i, l :: ls => do
    let s ← getSt
    emit (Event.reportChapter s.currentProduct.Total i l.ChapterName)
    let chapterName := env.filenamify (toString l.IndexNo ++ "." ++ l.ChapterName)
    let chapterDir := env.join projectDir chapterName
    let err ← call (Event.mkdirAll chapterDir) (fun h => env.mkdirAll h chapterDir)
    checkError err
    let i ← videoArticlesLoop cfg env downloaded chapterName chapterDir i l.Articles
    videoLessonsLoop cfg env downloaded projectDir i ls

/-- `handleDownloadAll` after `loadArticles()` and up to its last statement,
lines 316-434; the result tells whether `defer cancel()` of line 332 is
pending. -/
def downloadAllLoaded (cfg : Config) (env : Env) : M Bool := do
  let s ← getSt
  let projectDir ← mkDownloadProjectDir cfg env s.currentProduct.Title
  let scan ← call (Event.readDir projectDir)
    (fun h => findDownloadedArticleFileNames env.join (env.dirState h) projectDir)
  let downloaded := scan.1
  checkError scan.2
  if isText s.currentProduct then do
    emit (Event.printAll s.currentProduct.Title)
    let deferred : Bool ←
      if cfg.columnOutputType &&& 1 == 1 then do
        let err ← call Event.chromedpRun (fun h => env.chromedpRun h)
        checkError err
        pure true
      else pure false
    let _ ← textLessonsLoop cfg env downloaded projectDir 0 s.currentProduct.Lessons
    pure deferred
  else if isVideo s.currentProduct then do
    let _ ← videoLessonsLoop cfg env downloaded projectDir 0 s.currentProduct.Lessons
    pure false
  else pure false

/-- `handleDownloadAll` up to its last statement, the call
`selectProductType(ctx)` of line 435. -/
def handleDownloadAllBody (cfg : Config) (env : Env) : M Bool := do
  loadArticles env
  downloadAllLoaded cfg env

/-! ## The menus -/

/-- `productTypeOptions`: the values of the four product types of `init`. -/
def productTypeOptions : List Int := [1, 2, 4, 5]

/-- Go indexing `xs[i]` with an `int` index; `none` is the runtime panic. -/
def goIndex {α : Type} (xs : List α) (i : Int) : Option α :=
  if i < 0 then none else xs.get? i.toNat

/-- `strconv.Atoi` with the error dropped, as in line 172. -/
def atoi (s : String) : Int := (s.toInt?).getD 0

/-- `checkProductType`: the test, and the diagnostic when it fails. -/
def checkProductType (productType : String) (sourceType : Int) : M Bool := do
  if (productType == "d" && sourceType == 2) ||
      (productType == "q" && sourceType == 4) ||
      (productType == "c1" && sourceType == 1) ||
      (productType == "c3" && sourceType == 1) ||
      (productType == "c6" && sourceType == 1) ||
      (productType == "p29" && sourceType == 1) then
    return true
  emit (Event.printTypeMismatch productType sourceType)
  return false

/-- The functions of the menu automaton, with their arguments. -/
inductive Fn where
  | selectProductType
  | letInputProductID
  | loadProduct (productID : Int)
  | productOps
  | selectArticle
  | handleSelectArticle (index : Int)
  | handleDownloadAll
  deriving DecidableEq, Repr

/-- The menu functions of `root.go`, lines 134-436, with `n` levels of calls
among them left; with none left the outcome is `pending`. -/
def run (cfg : Config) (env : Env) : Nat → Fn → M Unit
  | 0, _ => pendingNow
  | n + 1, Fn.selectProductType => do
    let r ← call (Event.select Menu.selectProductType productTypeOptions.length)
      (fun h => env.selectRun h Menu.selectProductType productTypeOptions.length)
    let index ← checked r
    match goIndex productTypeOptions index with
    | none => panicNow
    | some v =>
      modifySt (fun s => { s with sourceType := v })
      run cfg env n Fn.letInputProductID
  | n + 1, Fn.letInputProductID => do
    let r ← call (Event.input Menu.letInputProductID)
      (fun h => env.promptRun h Menu.letInputProductID)
    let str ← checked r
    let id := atoi str
    let s ← getSt
    if s.sourceType == 1 || s.sourceType == 5 then do
      run cfg env n (Fn.loadProduct id)
      run cfg env n Fn.productOps
    else do
      let r ← call (Event.postV3ProductInfo id) (fun h => env.postV3ProductInfo h id)
      let productInfo ← checked r
      let c ← checkProductType productInfo.ProductType s.sourceType
      if c then do
        let projectDir ← mkDownloadProjectDir cfg env productInfo.Title
        let err ← call (Event.downloadArticleVideo productInfo.ArticleID s.sourceType projectDir
          cfg.quality cfg.concurrency)
          (fun h => env.downloadArticleVideo h productInfo.ArticleID s.sourceType projectDir)
        checkError err
      run cfg env n Fn.letInputProductID
  | n + 1, Fn.loadProduct productID => do
    emit (Event.spinner true)
    let s ← getSt
    let r : Except Err Product ←
      if s.sourceType == 5 then
        call (Event.getMyClassProduct productID) (fun h => env.getMyClassProduct h productID)
      else if s.sourceType == 1 then do
        let r ← call (Event.postV3ColumnInfo productID) (fun h => env.postV3ColumnInfo h productID)
        match r with
        | Except.ok p =>
          let c ← checkProductType p.ProductType s.sourceType
          if !c then do
            emit (Event.spinner false)
            run cfg env n Fn.letInputProductID
          pure r
        | Except.error _ => pure r
      else pure (Except.ok {})
    match r with
    | Except.error e =>
      emit (Event.spinner false)
      checkError (some e)
    | Except.ok p =>
      emit (Event.spinner false)
      if !p.Access then do
        emit Event.printNotBought
        run cfg env n Fn.letInputProductID
      modifySt (fun s => { s with currentProduct := p })
  | n + 1, Fn.productOps => do
    let r ← call (Event.select Menu.productOps 3) (fun h => env.selectRun h Menu.productOps 3)
    let index ← checked r
    if index == 0 then run cfg env n Fn.selectProductType
    else if index == 1 then run cfg env n Fn.handleDownloadAll
    else if index == 2 then run cfg env n Fn.selectArticle
    else pure ()
  | n + 1, Fn.selectArticle => do
    loadArticles env
    let s ← getSt
    let items := 1 + s.currentProduct.Articles.length
    let r ← call (Event.select Menu.selectArticle items)
      (fun h => env.selectRun h Menu.selectArticle items)
    let index ← checked r
    run cfg env n (Fn.handleSelectArticle index)
  | n + 1, Fn.handleSelectArticle index => do
    if index == 0 then
      run cfg env n Fn.productOps
    let s ← getSt
    match goIndex s.currentProduct.Articles (index - 1) with
    | none => panicNow
    | some a =>
      let projectDir ← mkDownloadProjectDir cfg env s.currentProduct.Title
      downloadArticle cfg env a projectDir
      emit (Event.printDone a.Title)
      emit Event.sleepSecond
      run cfg env n Fn.selectArticle
  | n + 1, Fn.handleDownloadAll => do
    let deferred ← handleDownloadAllBody cfg env
    run cfg env n Fn.selectProductType
    if deferred then
      emit Event.chromedpCancel

/-! ## Reading a trace -/

/-- The events of `t` that come after the first `n`. -/
def eventsAfter (n : Nat) (t : List Event) : List Event := t.drop n

/-- The call of the rendering collaborator. -/
def Event.isRender : Event → Bool
  | Event.printArticlePageToPDF _ _ _ _ => true
  | _ => false

/-- The shared detail fetch `geektime.GetArticleInfo`. -/
def Event.isDetail : Event → Bool
  | Event.getArticleInfo _ => true
  | _ => false

/-- The call of the text collaborator. -/
def Event.isTextFetch : Event → Bool
  | Event.markdownDownload _ _ _ _ _ => true
  | _ => false

/-- The call of the audio collaborator. -/
def Event.isAudioFetch : Event → Bool
  | Event.downloadAudio _ _ _ => true
  | _ => false

/-- The output line of an article, as (total, counter, title). -/
def Event.articleReport : Event → Option (Nat × Nat × String)
  | Event.reportArticle total i title => some (total, i, title)
  | _ => none

/-- The directory and the title handed to the rendering, text or audio
collaborator. -/
def Event.handed : Event → Option (String × String)
  | Event.printArticlePageToPDF _ dir title _ => some (dir, title)
  | Event.markdownDownload _ title dir _ _ => some (dir, title)
  | Event.downloadAudio _ dir title => some (dir, title)
  | _ => none

/-- The scan of the destination tree. -/
def Event.isReadDir : Event → Bool
  | Event.readDir _ => true
  | _ => false

/-- The collaborators of the fetch section. -/
inductive Kind where
  | render
  | detail
  | text
  | audio
  deriving DecidableEq, Repr

/-- The collaborator that an event is a call of, if any. -/
def Event.kind : Event → Option Kind
  | Event.printArticlePageToPDF _ _ _ _ => some Kind.render
  | Event.getArticleInfo _ => some Kind.detail
  | Event.markdownDownload _ _ _ _ _ => some Kind.text
  | Event.downloadAudio _ _ _ => some Kind.audio
  | _ => none

/-- The collaborator calls of a trace, in the order of the trace. -/
def callKinds (t : List Event) : List Kind := t.filterMap Event.kind

/-- The calls that the three flags ask for, in the order of the fetch section. -/
def callsOf (n0 n1 n2 : Bool) : List Kind :=
  (if n0 then [Kind.render] else []) ++ (if n1 || n2 then [Kind.detail] else []) ++
    (if n1 then [Kind.text] else []) ++ (if n2 then [Kind.audio] else [])

/-- The calls that the mask `n` asks for. -/
def neededCalls (n : Nat) : List Kind := callsOf (n.testBit 0) (n.testBit 1) (n.testBit 2)

/-! ## Functions of the statements -/

/-- The output lines of the articles `as` when the counter stands at `i`:
article number `k` of the list is reported as `i + k` out of `total`. -/
def articleReportsFrom (total : Nat) : Nat → List RArticle → List (Nat × Nat × String)
  | _, [] => []
  | i, a :: as => (total, i + 1, a.ArticleTitle) :: articleReportsFrom total (i + 1) as

/-- The output lines expected for the detail records `ds` of a listing when the
counter stands at `i`: record number `k` is reported as `i + k` out of `total`,
with its title. -/
def detailReports (total : Nat) : Nat → List ArticleDetail → List (Nat × Nat × String)
  | _, [] => []
  | i, x :: ds => (total, i + 1, x.Title) :: detailReports total (i + 1) ds

/-- The chapter directory of a lesson below `projectDir`, lines 339-340 and
486-487. -/
def chapterDirOf (env : Env) (projectDir : String) (l : Lesson) : String :=
  env.join projectDir (env.filenamify (toString l.IndexNo ++ "." ++ l.ChapterName))

/-- The lesson that `groupStep` opens for the record `d` when `n` lessons exist. -/
def openedLesson (n : Nat) (d : ArticleDetail) : Lesson :=
  { ChapterName := d.ChapterTitle, ChapterID := d.ChapterID, IndexNo := n + 1,
    Articles := [{ ArticleID := d.ID, ArticleTitle := d.Title, IndexNo := 1 }] }

/-- The lesson `last` after `groupStep` has appended the record `d` to it. -/
def appendedLesson (last : Lesson) (d : ArticleDetail) : Lesson :=
  { last with Articles := last.Articles ++
      [{ ArticleID := d.ID, ArticleTitle := d.Title, IndexNo := last.Articles.length + 1 }] }

/-- The pairs (Lesson IndexNo, Article IndexNo) of the articles of `lessons`, in
the order in which download-all walks them. -/
def indexPairs (lessons : List Lesson) : List (Nat × Nat) :=
  lessons.flatMap (fun l => l.Articles.map (fun a => (l.IndexNo, a.IndexNo)))

/-- The strict lexicographic order on index pairs. -/
def lexLt (p q : Nat × Nat) : Prop := p.1 < q.1 ∨ (p.1 = q.1 ∧ p.2 < q.2)

/-- The computation never returns normally: it exits, panics or is still
running. -/
def NoRet {α : Type} (m : M α) : Prop := ∀ s a, (m s).1 ≠ Outcome.ret a

/-- The article ids of `lessons`, in the order of the lessons and of their
articles. -/
def lessonIds (lessons : List Lesson) : List Int :=
  lessons.flatMap (fun l => l.Articles.map (fun a => a.ArticleID))

/-! ## Concrete inputs -/

/-- An environment in which every collaborator succeeds; file names are left
as they are and paths are joined with a slash. -/
def quietEnv : Env where
  filenamify := fun x => x
  join := fun d f => d ++ "/" ++ f
  pdfExt := ".pdf"
  mdExt := ".md"
  mp3Ext := ".mp3"
  tsExt := ".ts"
  postV1ColumnArticles := fun _ _ => Except.ok []
  postV3ArticleInfo := fun _ aid => Except.ok { ID := aid, Title := "", ChapterID := 0, ChapterTitle := "" }
  getArticleInfo := fun _ _ => Except.ok {}
  printArticlePageToPDF := fun _ _ _ _ => none
  markdownDownload := fun _ _ _ _ _ => none
  downloadAudio := fun _ _ _ _ => none
  downloadArticleVideo := fun _ _ _ _ => none
  downloadUniversityVideo := fun _ _ _ => none
  chromedpRun := fun _ => none
  mkdirAll := fun _ _ => none
  dirState := fun _ _ => DirState.entries []
  selectRun := fun _ _ _ => Except.ok 0
  promptRun := fun _ _ => Except.ok "1"
  postV3ProductInfo := fun _ _ => Except.error "none"
  postV3ColumnInfo := fun _ _ => Except.error "none"
  getMyClassProduct := fun _ _ => Except.error "none"

/-- An environment whose text fetch fails while everything else succeeds. -/
def textFailEnv : Env :=
  { quietEnv with markdownDownload := fun _ _ _ _ _ => some "text fetch failed" }

/-- The article of the concrete runs. -/
def sampleArticle : RArticle := { ArticleID := 5, ArticleTitle := "t", IndexNo := 1 }

/-- A product that has been loaded: one chapter with the one article of the
concrete runs. -/
def loadedState : St :=
  { currentProduct :=
      { ProductType := "c1", Title := "P", Articles := [{ AID := 5, Title := "t" }], Total := 1,
        Lessons := [{ ChapterName := "c", ChapterID := 1, IndexNo := 1,
                      Articles := [sampleArticle] }] } }

/-- A text product that has not been loaded yet. -/
def textState : St := { currentProduct := { ProductType := "c1", Title := "P" } }

/-- An environment whose destination tree `r` holds the chapter directory
`1.c` with the file `t.pdf`. -/
def pdfOnDiskEnv : Env :=
  { quietEnv with
    dirState := fun _ path =>
      if path == "r" then DirState.entries [{ Name := "1.c", IsDir := true }]
      else if path == "r/1.c" then DirState.entries [{ Name := "t.pdf", IsDir := false }]
      else DirState.missing }

/-- An environment whose sanitizer replaces the path separator by an
underscore. -/
def slashEnv : Env :=
  { quietEnv with
    filenamify := fun name => String.mk (name.data.map (fun c => if c = '/' then '_' else c)) }

/-- The listing of the grouping example: six articles with ids 1 to 6. -/
def sixArticles : List Article :=
  [⟨1, "a1"⟩, ⟨2, "a2"⟩, ⟨3, "a3"⟩, ⟨4, "a4"⟩, ⟨5, "a5"⟩, ⟨6, "a6"⟩]

/-- The detail records of the grouping example: chapter ids
`[10, 10, 20, 20, 20, 30]`. -/
def sixDetail (aid : Int) : ArticleDetail :=
  { ID := aid, Title := "a" ++ toString aid,
    ChapterID := if aid ≤ 2 then 10 else if aid ≤ 5 then 20 else 30,
    ChapterTitle := if aid ≤ 2 then "c1" else if aid ≤ 5 then "c2" else "c3" }

/-- The environment of the grouping example. -/
def sixEnv : Env :=
  { quietEnv with
    postV1ColumnArticles := fun _ _ => Except.ok sixArticles
    postV3ArticleInfo := fun _ aid => Except.ok (sixDetail aid) }

/-- An environment whose listing is empty at the first call and has one
article afterwards. -/
def emptyThenOneEnv : Env :=
  { quietEnv with
    postV1ColumnArticles := fun h _ =>
      if h.length ≤ 1 then Except.ok [] else Except.ok [⟨1, "a1"⟩] }

/-- A file system in which only the root `r` exists, holding the directory `a`
that cannot be listed. -/
def brokenSubdirFs (path : String) : DirState :=
  if path == "r" then DirState.entries [{ Name := "a", IsDir := true }]
  else if path == "r/a" then DirState.unreadable "permission denied"
  else DirState.missing

/-- An environment whose select prompt always answers with the first item (and
fails on an empty list of items). -/
def firstItemEnv : Env :=
  { quietEnv with
    selectRun := fun _ _ k => if k = 0 then Except.error "no items" else Except.ok 0 }

/-! ## Lemmas -/

/-! ### Running the monad -/

theorem bind_eq {α β : Type} (m : M α) (f : α → M β) : (m >>= f) = M.bind m f := rfl

theorem pure_eq {α : Type} (a : α) : (pure a : M α) = M.pure a := rfl

theorem M.pure_run {α : Type} (a : α) (s : St) : M.pure a s = (Outcome.ret a, s) := rfl

theorem M.bind_pure_left {α β : Type} (a : α) (f : α → M β) (s : St) :
    M.bind (M.pure a) f s = f a s := rfl

theorem M.bind_emit {β : Type} (e : Event) (f : Unit → M β) (s : St) :
    M.bind (emit e) f s = f () { s with trace := s.trace ++ [e] } := rfl

theorem M.bind_call {α β : Type} (e : Event) (g : List Event → α) (f : α → M β) (s : St) :
    M.bind (call e g) f s = f (g s.trace) { s with trace := s.trace ++ [e] } := rfl

theorem M.bind_getSt {β : Type} (f : St → M β) (s : St) : M.bind getSt f s = f s s := rfl

theorem M.bind_modifySt {β : Type} (g : St → St) (f : Unit → M β) (s : St) :
    M.bind (modifySt g) f s = f () (g s) := rfl

theorem M.bind_checkError {β : Type} (err : Option Err) (f : Unit → M β) (s : St) :
    M.bind (checkError err) f s =
      match err with
      | none => f () s
      | some e => (Outcome.exited, { s with trace := s.trace ++ [Event.exit e] }) := by
  cases err <;> rfl

theorem M.bind_checked {α β : Type} (r : Except Err α) (f : α → M β) (s : St) :
    M.bind (checked r) f s =
      match r with
      | Except.ok a => f a s
      | Except.error e => (Outcome.exited, { s with trace := s.trace ++ [Event.exit e] }) := by
  cases r <;> rfl

theorem M.bind_assoc {α β γ : Type} (m : M α) (f : α → M β) (g : β → M γ) (s : St) :
    M.bind (M.bind m f) g s = M.bind m (fun a => M.bind (f a) g) s := by
  simp only [M.bind]
  rcases m s with ⟨o, s1⟩
  cases o <;> rfl

theorem M.bind_ite {α β : Type} (c : Prop) [Decidable c] (m1 m2 : M α) (f : α → M β) (s : St) :
    M.bind (if c then m1 else m2) f s = if c then M.bind m1 f s else M.bind m2 f s := by
  split <;> rfl

theorem emit_run (e : Event) (s : St) :
    emit e s = (Outcome.ret (), { s with trace := s.trace ++ [e] }) := rfl

theorem call_run {α : Type} (e : Event) (g : List Event → α) (s : St) :
    call e g s = (Outcome.ret (g s.trace), { s with trace := s.trace ++ [e] }) := rfl

theorem checkError_run (err : Option Err) (s : St) :
    checkError err s =
      match err with
      | none => (Outcome.ret (), s)
      | some e => (Outcome.exited, { s with trace := s.trace ++ [Event.exit e] }) := by
  cases err <;> rfl

theorem ite_run {α : Type} (c : Prop) [Decidable c] (m1 m2 : M α) (s : St) :
    (if c then m1 else m2) s = if c then m1 s else m2 s := by
  split <;> rfl

theorem andNot_bits : ∀ R < 8, ∀ b < 8,
    ((andNot R b &&& 1 == 1) = (andNot R b).testBit 0) ∧
    ((andNot (R >>> 1) (b >>> 1) &&& 1 == 1) = (andNot R b).testBit 1) ∧
    ((andNot (R >>> 2) (b >>> 2) &&& 1 == 1) = (andNot R b).testBit 2) ∧
    ((andNot R b).testBit 0 = (R.testBit 0 && !b.testBit 0)) ∧
    ((andNot R b).testBit 1 = (R.testBit 1 && !b.testBit 1)) ∧
    ((andNot R b).testBit 2 = (R.testBit 2 && !b.testBit 2)) ∧
    ((andNot R b == 0) = (!(andNot R b).testBit 0 && !(andNot R b).testBit 1 && !(andNot R b).testBit 2)) := by
  decide

set_option maxHeartbeats 4000000 in
theorem fetchSection_spec (cfg : Config) (env : Env) (b : Nat) (chapterDir title : String)
    (a : RArticle) (s : St) (n0 n1 n2 : Bool)
    (h0 : (andNot cfg.columnOutputType b &&& 1 == 1) = n0)
    (h1 : (andNot (cfg.columnOutputType >>> 1) (b >>> 1) &&& 1 == 1) = n1)
    (h2 : (andNot (cfg.columnOutputType >>> 2) (b >>> 2) &&& 1 == 1) = n2) :
    ∃ new o, fetchSection cfg env b chapterDir title a s = (o, { s with trace := s.trace ++ new }) ∧
      (o = Outcome.ret () ∨ o = Outcome.exited) ∧
      new.countP Event.isRender = n0.toNat ∧
      new.countP Event.isDetail ≤ (n1 || n2).toNat ∧
      new.countP Event.isTextFetch ≤ n1.toNat ∧
      new.countP Event.isAudioFetch ≤ n2.toNat ∧
      (o = Outcome.ret () →
        new.countP Event.isDetail = (n1 || n2).toNat ∧
        new.countP Event.isTextFetch = n1.toNat ∧
        new.countP Event.isAudioFetch = n2.toNat) ∧
      (∀ e ∈ new, e.articleReport = none ∧ e.isReadDir = false ∧
        (e.handed = none ∨ e.handed = some (chapterDir, title))) := by
  simp only [fetchSection, h0, h1, h2]
  cases n0 <;> cases n1 <;> cases n2 <;>
    simp only [bind_eq, pure_eq, M.pure_run, M.bind_pure_left, M.bind_emit, M.bind_call,
      M.bind_checkError, M.bind_checked, M.bind_assoc, M.bind_ite, emit_run, call_run,
      checkError_run, ite_run, ↓reduceIte, Bool.or_self, Bool.or_true, Bool.true_or,
      Bool.false_eq_true, ne_eq, ite_not, List.append_assoc, List.singleton_append,
      List.cons_append, List.nil_append]
  all_goals clear h0 h1 h2
  all_goals (repeat' split)
  all_goals
    refine ⟨_, _, rfl, ?_⟩
    simp [Event.isRender, Event.isDetail, Event.isTextFetch, Event.isAudioFetch,
      Event.articleReport, Event.isReadDir, Event.handed]

set_option maxHeartbeats 4000000 in
theorem fetchSection_calls (cfg : Config) (env : Env) (b : Nat) (chapterDir title : String)
    (a : RArticle) (s : St) (n0 n1 n2 : Bool)
    (h0 : (andNot cfg.columnOutputType b &&& 1 == 1) = n0)
    (h1 : (andNot (cfg.columnOutputType >>> 1) (b >>> 1) &&& 1 == 1) = n1)
    (h2 : (andNot (cfg.columnOutputType >>> 2) (b >>> 2) &&& 1 == 1) = n2) :
    ∃ new o, fetchSection cfg env b chapterDir title a s = (o, { s with trace := s.trace ++ new }) ∧
      callKinds new <+: callsOf n0 n1 n2 ∧
      ((n0 = true → env.printArticlePageToPDF s.trace a.ArticleID chapterDir title = none) →
        ((n1 || n2) = true → ∃ info, env.getArticleInfo (s.trace ++
            if n0 then [Event.printArticlePageToPDF a.ArticleID chapterDir title
              cfg.downloadComments] else []) a.ArticleID = Except.ok info) →
        callKinds new = callsOf n0 n1 n2) ∧
      (∀ e, n0 = true → env.printArticlePageToPDF s.trace a.ArticleID chapterDir title = some e →
        callKinds new = [Kind.render] ∧ o = Outcome.exited) ∧
      (∀ e, (n0 = true → env.printArticlePageToPDF s.trace a.ArticleID chapterDir title = none) →
        (n1 || n2) = true → env.getArticleInfo (s.trace ++
            if n0 then [Event.printArticlePageToPDF a.ArticleID chapterDir title
              cfg.downloadComments] else []) a.ArticleID = Except.error e →
        callKinds new = (if n0 then [Kind.render] else []) ++ [Kind.detail] ∧
          o = Outcome.exited) ∧
      (o = Outcome.ret () → callKinds new = callsOf n0 n1 n2) := by
  simp only [fetchSection, h0, h1, h2]
  cases n0 <;> cases n1 <;> cases n2 <;>
    simp only [bind_eq, pure_eq, M.pure_run, M.bind_pure_left, M.bind_emit, M.bind_call,
      M.bind_checkError, M.bind_checked, M.bind_assoc, M.bind_ite, emit_run, call_run,
      checkError_run, ite_run, ↓reduceIte, Bool.or_self, Bool.or_true, Bool.true_or,
      Bool.false_eq_true, ne_eq, ite_not, List.append_assoc, List.singleton_append,
      List.cons_append, List.nil_append]
  all_goals clear h0 h1 h2
  all_goals (repeat' split)
  all_goals
    refine ⟨_, _, rfl, ?_⟩
    simp_all [callKinds, callsOf, Event.kind]

theorem presentMask_spec (env : Env) (downloaded : Presence) (chapterName title : String) :
    presentMask env downloaded chapterName title ≤ 7 ∧
    (presentMask env downloaded chapterName title).testBit 0
      = hasFile downloaded chapterName (title ++ env.pdfExt) ∧
    (presentMask env downloaded chapterName title).testBit 1
      = hasFile downloaded chapterName (title ++ env.mdExt) ∧
    (presentMask env downloaded chapterName title).testBit 2
      = hasFile downloaded chapterName (title ++ env.mp3Ext) := by
  unfold presentMask
  cases hasFile downloaded chapterName (title ++ env.pdfExt) <;>
    cases hasFile downloaded chapterName (title ++ env.mdExt) <;>
    cases hasFile downloaded chapterName (title ++ env.mp3Ext) <;>
    simp [setBit] <;> decide

theorem textArticleBody_run (cfg : Config) (env : Env) (downloaded : Presence)
    (chapterName chapterDir : String) (i : Nat) (a : RArticle) (s : St) :
    textArticleBody cfg env downloaded chapterName chapterDir i a s =
      if skipTest cfg.columnOutputType
          (presentMask env downloaded chapterName (env.filenamify a.ArticleTitle)) then
        (Outcome.ret (i + 1), { s with trace := s.trace ++
          [Event.reportArticle s.currentProduct.Total (i + 1) a.ArticleTitle] })
      else M.bind (fetchSection cfg env
          (presentMask env downloaded chapterName (env.filenamify a.ArticleTitle)) chapterDir
          (env.filenamify a.ArticleTitle) a) (fun _ => M.pure (i + 1))
        { s with trace := s.trace ++
          [Event.reportArticle s.currentProduct.Total (i + 1) a.ArticleTitle] } := by
  simp only [textArticleBody, bind_eq, pure_eq, M.bind_getSt, M.bind_emit, M.bind_assoc,
    ite_run, M.pure_run]
  rfl

theorem mask_bits : ∀ R < 8,
    ((R &&& 1 == 1) = R.testBit 0) ∧ (((R >>> 1) &&& 1 == 1) = R.testBit 1) ∧
    (((R >>> 2) &&& 1 == 1) = R.testBit 2) := by
  decide

set_option maxHeartbeats 4000000 in
theorem downloadArticleText_spec (cfg : Config) (env : Env) (article : Article)
    (chapterDir : String) (s : St) (n0 n1 n2 : Bool)
    (h0 : (cfg.columnOutputType &&& 1 == 1) = n0)
    (h1 : ((cfg.columnOutputType >>> 1) &&& 1 == 1) = n1)
    (h2 : ((cfg.columnOutputType >>> 2) &&& 1 == 1) = n2) :
    ∃ new o, downloadArticleText cfg env article chapterDir s
        = (o, { s with trace := s.trace ++ new }) ∧
      (o = Outcome.ret () ∨ o = Outcome.exited) ∧
      new.countP Event.isRender ≤ n0.toNat ∧
      new.countP Event.isDetail ≤ (n1 || n2).toNat ∧
      new.countP Event.isTextFetch ≤ n1.toNat ∧
      new.countP Event.isAudioFetch ≤ n2.toNat ∧
      (o = Outcome.ret () →
        new.countP Event.isRender = n0.toNat ∧
        new.countP Event.isDetail = (n1 || n2).toNat ∧
        new.countP Event.isTextFetch = n1.toNat ∧
        new.countP Event.isAudioFetch = n2.toNat) ∧
      (∀ e ∈ new, e.articleReport = none ∧ e.isReadDir = false ∧
        (e.handed = none ∨ e.handed = some (chapterDir, article.Title))) := by
  simp only [downloadArticleText, h0, h1, h2]
  cases n0 <;> cases n1 <;> cases n2 <;>
    simp only [bind_eq, pure_eq, M.pure_run, M.bind_pure_left, M.bind_emit, M.bind_call,
      M.bind_checkError, M.bind_checked, M.bind_assoc, M.bind_ite, emit_run, call_run,
      checkError_run, ite_run, ↓reduceIte, Bool.or_self, Bool.or_true, Bool.true_or,
      Bool.false_eq_true, ne_eq, ite_not, List.append_assoc, List.singleton_append,
      List.cons_append, List.nil_append]
  all_goals clear h0 h1 h2
  all_goals (repeat' split)
  all_goals
    refine ⟨_, _, rfl, ?_⟩
    simp [Event.isRender, Event.isDetail, Event.isTextFetch, Event.isAudioFetch,
      Event.articleReport, Event.isReadDir, Event.handed]

set_option maxHeartbeats 4000000 in
theorem downloadArticleText_calls (cfg : Config) (env : Env) (article : Article)
    (chapterDir : String) (s : St) (n0 n1 n2 : Bool)
    (h0 : (cfg.columnOutputType &&& 1 == 1) = n0)
    (h1 : ((cfg.columnOutputType >>> 1) &&& 1 == 1) = n1)
    (h2 : ((cfg.columnOutputType >>> 2) &&& 1 == 1) = n2) :
    ∃ new o, downloadArticleText cfg env article chapterDir s
        = (o, { s with trace := s.trace ++ new }) ∧
      callKinds new <+: callsOf n0 n1 n2 ∧
      ((n0 = true → env.chromedpRun (s.trace ++ [Event.spinner true]) = none ∧
          env.printArticlePageToPDF (s.trace ++ [Event.spinner true, Event.chromedpRun])
            article.AID chapterDir article.Title = none) →
        ((n1 || n2) = true → ∃ info, env.getArticleInfo (s.trace ++ Event.spinner true ::
            if n0 then [Event.chromedpRun, Event.printArticlePageToPDF article.AID chapterDir
              article.Title cfg.downloadComments] else []) article.AID = Except.ok info) →
        callKinds new = callsOf n0 n1 n2) ∧
      (o = Outcome.ret () → callKinds new = callsOf n0 n1 n2) := by
  simp only [downloadArticleText, h0, h1, h2]
  cases n0 <;> cases n1 <;> cases n2 <;>
    simp only [bind_eq, pure_eq, M.pure_run, M.bind_pure_left, M.bind_emit, M.bind_call,
      M.bind_checkError, M.bind_checked, M.bind_assoc, M.bind_ite, emit_run, call_run,
      checkError_run, ite_run, ↓reduceIte, Bool.or_self, Bool.or_true, Bool.true_or,
      Bool.false_eq_true, ne_eq, ite_not, List.append_assoc, List.singleton_append,
      List.cons_append, List.nil_append]
  all_goals clear h0 h1 h2
  all_goals (repeat' split)
  all_goals
    refine ⟨_, _, rfl, ?_⟩
    simp_all [callKinds, callsOf, Event.kind]

theorem countP_isRender (t : List Event) :
    t.countP Event.isRender = (callKinds t).count Kind.render := by
  induction t with
  | nil => rfl
  | cons e t ih => cases e <;> simp_all [callKinds, Event.kind, Event.isRender]

theorem countP_isDetail (t : List Event) :
    t.countP Event.isDetail = (callKinds t).count Kind.detail := by
  induction t with
  | nil => rfl
  | cons e t ih => cases e <;> simp_all [callKinds, Event.kind, Event.isDetail]

theorem countP_isTextFetch (t : List Event) :
    t.countP Event.isTextFetch = (callKinds t).count Kind.text := by
  induction t with
  | nil => rfl
  | cons e t ih => cases e <;> simp_all [callKinds, Event.kind, Event.isTextFetch]

theorem countP_isAudioFetch (t : List Event) :
    t.countP Event.isAudioFetch = (callKinds t).count Kind.audio := by
  induction t with
  | nil => rfl
  | cons e t ih => cases e <;> simp_all [callKinds, Event.kind, Event.isAudioFetch]

theorem callsOf_count : ∀ n0 n1 n2 : Bool,
    (callsOf n0 n1 n2).count Kind.render = n0.toNat ∧
    (callsOf n0 n1 n2).count Kind.detail = (n1 || n2).toNat ∧
    (callsOf n0 n1 n2).count Kind.text = n1.toNat ∧
    (callsOf n0 n1 n2).count Kind.audio = n2.toNat := by
  decide

theorem downloadArticle_run (cfg : Config) (env : Env) (article : Article) (projectDir : String)
    (s : St) (htext : isText s.currentProduct = true) :
    downloadArticle cfg env article projectDir s =
      match getLesson s.currentProduct.Lessons article.AID with
      | Except.error e => (Outcome.exited, { s with trace := s.trace ++ [Event.exit e] })
      | Except.ok l =>
        match env.mkdirAll s.trace
            (env.join projectDir (env.filenamify (toString l.IndexNo ++ "." ++ l.ChapterName))) with
        | some e => (Outcome.exited, { s with trace := s.trace ++
            [Event.mkdirAll (env.join projectDir
              (env.filenamify (toString l.IndexNo ++ "." ++ l.ChapterName))), Event.exit e] })
        | none => downloadArticleText cfg env article
            (env.join projectDir (env.filenamify (toString l.IndexNo ++ "." ++ l.ChapterName)))
            { s with trace := s.trace ++ [Event.mkdirAll (env.join projectDir
              (env.filenamify (toString l.IndexNo ++ "." ++ l.ChapterName)))] } := by
  simp only [downloadArticle, bind_eq, pure_eq, M.bind_getSt, M.bind_checked, M.bind_call,
    M.bind_checkError, M.bind_assoc, htext, ↓reduceIte]
  cases getLesson s.currentProduct.Lessons article.AID with
  | error e => rfl
  | ok l =>
    simp only []
    cases env.mkdirAll s.trace
      (env.join projectDir (env.filenamify (toString l.IndexNo ++ "." ++ l.ChapterName))) <;> simp

theorem articleReportsFrom_append (total : Nat) (xs ys : List RArticle) (i : Nat) :
    articleReportsFrom total i (xs ++ ys)
      = articleReportsFrom total i xs ++ articleReportsFrom total (i + xs.length) ys := by
  induction xs generalizing i with
  | nil => simp [articleReportsFrom]
  | cons x xs ih => simp [articleReportsFrom, ih, Nat.add_assoc, Nat.add_comm 1]

theorem textArticleBody_spec (cfg : Config) (env : Env) (downloaded : Presence)
    (chapterName chapterDir : String) (i : Nat) (a : RArticle) (s : St) :
    ∃ new o, textArticleBody cfg env downloaded chapterName chapterDir i a s
        = (o, { s with trace := s.trace ++
            Event.reportArticle s.currentProduct.Total (i + 1) a.ArticleTitle :: new }) ∧
      (o = Outcome.ret (i + 1) ∨ o = Outcome.exited) ∧
      (∀ e ∈ new, e.articleReport = none ∧ e.isReadDir = false ∧
        (e.handed = none ∨ e.handed = some (chapterDir, env.filenamify a.ArticleTitle))) := by
  rw [textArticleBody_run]
  split
  · exact ⟨[], _, rfl, Or.inl rfl, by simp⟩
  · obtain ⟨new1, o, hrun, ho, -, -, -, -, -, hall⟩ := fetchSection_spec cfg env
      (presentMask env downloaded chapterName (env.filenamify a.ArticleTitle)) chapterDir
      (env.filenamify a.ArticleTitle) a { s with trace := s.trace ++
        [Event.reportArticle s.currentProduct.Total (i + 1) a.ArticleTitle] } _ _ _ rfl rfl rfl
    simp only [M.bind, hrun]
    rcases ho with rfl | rfl
    · exact ⟨new1, _, by simp [M.pure], Or.inl rfl, hall⟩
    · exact ⟨new1, _, by simp, Or.inr rfl, hall⟩

theorem textArticlesLoop_spec (cfg : Config) (env : Env) (downloaded : Presence)
    (chapterName chapterDir : String) (as : List RArticle) :
    ∀ (i : Nat) (s : St), ∃ new o,
      textArticlesLoop cfg env downloaded chapterName chapterDir i as s
        = (o, { s with trace := s.trace ++ new }) ∧
      (o = Outcome.ret (i + as.length) ∨ o = Outcome.exited) ∧
      new.filterMap Event.articleReport <+: articleReportsFrom s.currentProduct.Total i as ∧
      (o = Outcome.ret (i + as.length) →
        new.filterMap Event.articleReport = articleReportsFrom s.currentProduct.Total i as) ∧
      (∀ e ∈ new, e.isReadDir = false ∧ (e.handed = none ∨
        ∃ a ∈ as, e.handed = some (chapterDir, env.filenamify a.ArticleTitle))) := by
  induction as with
  | nil =>
    intro i s
    exact ⟨[], _, by simp [textArticlesLoop, pure_eq, M.pure_run], Or.inl rfl, by simp [articleReportsFrom],
      by simp [articleReportsFrom], by simp⟩
  | cons a as ih =>
    intro i s
    obtain ⟨new1, o1, hrun1, ho1, hall1⟩ :=
      textArticleBody_spec cfg env downloaded chapterName chapterDir i a s
    simp only [textArticlesLoop, bind_eq, M.bind, hrun1]
    rcases ho1 with rfl | rfl
    · obtain ⟨new2, o2, hrun2, ho2, hpre, heq, hall2⟩ := ih (i + 1) { s with trace := s.trace ++
            (Event.reportArticle s.currentProduct.Total (i + 1) a.ArticleTitle :: new1) }
      have hf : List.filterMap Event.articleReport new1 = [] := by
        rw [List.filterMap_eq_nil_iff]; intro e he; exact (hall1 e he).1
      refine ⟨Event.reportArticle s.currentProduct.Total (i + 1) a.ArticleTitle :: (new1 ++ new2),
        o2, by simp [hrun2], ?_, ?_, ?_, ?_⟩
      · rcases ho2 with rfl | rfl
        · left; simp [Nat.add_assoc, Nat.add_comm 1]
        · right; rfl
      · simp only [List.filterMap_cons, Event.articleReport, List.filterMap_append, hf,
          List.nil_append, articleReportsFrom]
        exact (List.prefix_cons_inj _).2 hpre
      · intro h
        have h2 : o2 = Outcome.ret (i + 1 + as.length) := by
          rw [h]; simp [Nat.add_assoc, Nat.add_comm 1]
        simp only [List.filterMap_cons, Event.articleReport, List.filterMap_append, hf,
          List.nil_append, articleReportsFrom]
        rw [heq h2]
      · intro e he
        rcases List.mem_cons.1 he with rfl | he
        · exact ⟨rfl, Or.inl rfl⟩
        · rcases List.mem_append.1 he with he | he
          · refine ⟨(hall1 e he).2.1, ?_⟩
            rcases (hall1 e he).2.2 with h | h
            · exact Or.inl h
            · exact Or.inr ⟨a, by simp, h⟩
          · refine ⟨(hall2 e he).1, ?_⟩
            rcases (hall2 e he).2 with h | ⟨b, hb, h⟩
            · exact Or.inl h
            · exact Or.inr ⟨b, by simp [hb], h⟩
    · have hf : List.filterMap Event.articleReport new1 = [] := by
        rw [List.filterMap_eq_nil_iff]; intro e he; exact (hall1 e he).1
      refine ⟨Event.reportArticle s.currentProduct.Total (i + 1) a.ArticleTitle :: new1,
        _, rfl, Or.inr rfl, ?_, by simp, ?_⟩
      · simp only [List.filterMap_cons, Event.articleReport, hf, articleReportsFrom]
        exact (List.prefix_cons_inj _).2 (List.nil_prefix)
      · intro e he
        rcases List.mem_cons.1 he with rfl | he
        · exact ⟨rfl, Or.inl rfl⟩
        · refine ⟨(hall1 e he).2.1, ?_⟩
          rcases (hall1 e he).2.2 with h | h
          · exact Or.inl h
          · exact Or.inr ⟨a, by simp, h⟩

theorem textLessonsLoop_spec (cfg : Config) (env : Env) (downloaded : Presence)
    (projectDir : String) (ls : List Lesson) :
    ∀ (i : Nat) (s : St), ∃ new o,
      textLessonsLoop cfg env downloaded projectDir i ls s
        = (o, { s with trace := s.trace ++ new }) ∧
      (o = Outcome.ret (i + (ls.flatMap (fun l => l.Articles)).length) ∨ o = Outcome.exited) ∧
      new.filterMap Event.articleReport
        <+: articleReportsFrom s.currentProduct.Total i (ls.flatMap (fun l => l.Articles)) ∧
      (o = Outcome.ret (i + (ls.flatMap (fun l => l.Articles)).length) →
        new.filterMap Event.articleReport
          = articleReportsFrom s.currentProduct.Total i (ls.flatMap (fun l => l.Articles))) ∧
      (∀ e ∈ new, e.isReadDir = false ∧ (e.handed = none ∨
        ∃ l ∈ ls, ∃ a ∈ l.Articles,
          e.handed = some (chapterDirOf env projectDir l, env.filenamify a.ArticleTitle))) := by
  induction ls with
  | nil =>
    intro i s
    exact ⟨[], _, by simp [textLessonsLoop, pure_eq, M.pure_run], Or.inl rfl,
      by simp [articleReportsFrom], by simp [articleReportsFrom], by simp⟩
  | cons l ls ih =>
    intro i s
    simp only [textLessonsLoop, bind_eq, M.bind_getSt, M.bind_emit, M.bind_call,
      M.bind_checkError, M.bind_assoc, List.flatMap_cons, articleReportsFrom_append,
      List.length_append]
    cases hm : env.mkdirAll (s.trace ++ [Event.reportChapter s.currentProduct.Total i l.ChapterName])
      (env.join projectDir (env.filenamify (toString l.IndexNo ++ "." ++ l.ChapterName))) with
    | some e =>
      refine ⟨_, _, by simp only [List.append_assoc]; rfl, Or.inr rfl, ?_, by simp, ?_⟩
      · simp [Event.articleReport]
      · simp [Event.isReadDir, Event.handed]
    | none =>
      simp only []
      obtain ⟨new1, o1, hrun1, ho1, hpre1, heq1, hall1⟩ := textArticlesLoop_spec cfg env downloaded
        (env.filenamify (toString l.IndexNo ++ "." ++ l.ChapterName))
        (env.join projectDir (env.filenamify (toString l.IndexNo ++ "." ++ l.ChapterName)))
        l.Articles i { s with trace := s.trace ++
          [Event.reportChapter s.currentProduct.Total i l.ChapterName] ++
          [Event.mkdirAll (env.join projectDir
            (env.filenamify (toString l.IndexNo ++ "." ++ l.ChapterName)))] }
      simp only [M.bind, hrun1]
      rcases ho1 with rfl | rfl
      · obtain ⟨new2, o2, hrun2, ho2, hpre2, heq2, hall2⟩ := ih (i + l.Articles.length)
          { s with trace := s.trace ++
            [Event.reportChapter s.currentProduct.Total i l.ChapterName] ++
            [Event.mkdirAll (env.join projectDir
              (env.filenamify (toString l.IndexNo ++ "." ++ l.ChapterName)))] ++ new1 }
        have hr1 := heq1 rfl
        refine ⟨Event.reportChapter s.currentProduct.Total i l.ChapterName ::
          Event.mkdirAll (env.join projectDir
              (env.filenamify (toString l.IndexNo ++ "." ++ l.ChapterName))) :: (new1 ++ new2),
          o2, by simpa using hrun2, ?_, ?_, ?_, ?_⟩
        · rcases ho2 with rfl | rfl
          · left; simp [Nat.add_assoc]
          · right; rfl
        · simp only [List.filterMap_cons, Event.articleReport, List.filterMap_append, hr1]
          exact (List.prefix_append_right_inj _).2 hpre2
        · intro h
          have h2 : o2 = Outcome.ret (i + l.Articles.length +
              (ls.flatMap (fun l => l.Articles)).length) := by
            rw [h]; simp [Nat.add_assoc]
          simp only [List.filterMap_cons, Event.articleReport, List.filterMap_append, hr1]
          rw [heq2 h2]
        · intro e he
          rcases List.mem_cons.1 he with rfl | he
          · exact ⟨rfl, Or.inl rfl⟩
          rcases List.mem_cons.1 he with rfl | he
          · exact ⟨rfl, Or.inl rfl⟩
          rcases List.mem_append.1 he with he | he
          · refine ⟨(hall1 e he).1, ?_⟩
            rcases (hall1 e he).2 with h | ⟨a, ha, h⟩
            · exact Or.inl h
            · exact Or.inr ⟨l, by simp, a, ha, h⟩
          · refine ⟨(hall2 e he).1, ?_⟩
            rcases (hall2 e he).2 with h | ⟨l2, hl2, a, ha, h⟩
            · exact Or.inl h
            · exact Or.inr ⟨l2, by simp [hl2], a, ha, h⟩
      · refine ⟨Event.reportChapter s.currentProduct.Total i l.ChapterName ::
          Event.mkdirAll (env.join projectDir
              (env.filenamify (toString l.IndexNo ++ "." ++ l.ChapterName))) :: new1,
          _, by simp, Or.inr rfl, ?_, by simp, ?_⟩
        · simp only [List.filterMap_cons, Event.articleReport]
          exact hpre1.trans (List.prefix_append _ _)
        · intro e he
          rcases List.mem_cons.1 he with rfl | he
          · exact ⟨rfl, Or.inl rfl⟩
          rcases List.mem_cons.1 he with rfl | he
          · exact ⟨rfl, Or.inl rfl⟩
          refine ⟨(hall1 e he).1, ?_⟩
          rcases (hall1 e he).2 with h | ⟨a, ha, h⟩
          · exact Or.inl h
          · exact Or.inr ⟨l, by simp, a, ha, h⟩

theorem chapterRuns_cons_ne_nil (d : ArticleDetail) (ds : List ArticleDetail) :
    chapterRuns (d :: ds) ≠ [] := by
  simp only [chapterRuns]
  split
  · split <;> simp
  · simp

theorem chapterRuns_nil_not_mem (ds : List ArticleDetail) : [] ∉ chapterRuns ds := by
  induction ds with
  | nil => simp [chapterRuns]
  | cons d ds ih =>
    simp only [chapterRuns]
    split
    · rename_i e run runs h
      rw [h] at ih
      split <;> simp_all
    · simp

theorem chapterRuns_flatten (ds : List ArticleDetail) : (chapterRuns ds).flatten = ds := by
  induction ds with
  | nil => simp [chapterRuns]
  | cons d ds ih =>
    simp only [chapterRuns]
    split
    · rename_i e run runs h
      rw [h] at ih
      split <;> simp_all
    · rename_i h
      cases ds with
      | nil => simp
      | cons x xs =>
        exfalso
        have hne := chapterRuns_cons_ne_nil x xs
        have hnil := chapterRuns_nil_not_mem (x :: xs)
        cases hc : chapterRuns (x :: xs) with
        | nil => exact hne hc
        | cons r rs =>
          cases r with
          | nil => rw [hc] at hnil; simp at hnil
          | cons e run => exact h e run rs hc

theorem groupStep_nil (d : ArticleDetail) : groupStep [] d = [openedLesson 0 d] := by
  simp [groupStep, openedLesson]

theorem groupStep_snoc (pre : List Lesson) (last : Lesson) (d : ArticleDetail) :
    groupStep (pre ++ [last]) d =
      if last.ChapterID = d.ChapterID then pre ++ [appendedLesson last d]
      else (pre ++ [last]) ++ [openedLesson (pre.length + 1) d] := by
  by_cases h : last.ChapterID = d.ChapterID
  · simp [groupStep, h, appendedLesson]
  · simp [groupStep, h, openedLesson]

theorem foldl_groupStep_snoc (ds : List ArticleDetail) :
    ∀ (pre : List Lesson) (last : Lesson),
      ds.foldl groupStep (pre ++ [last]) = pre ++
        (match chapterRuns ds with
          | (e :: run) :: runs =>
            if last.ChapterID = e.ChapterID then
              { last with Articles := last.Articles ++ runArticles last.Articles.length (e :: run) }
                :: runLessons (pre.length + 1) runs
            else last :: runLessons (pre.length + 1) ((e :: run) :: runs)
          | _ => [last]) := by
  induction ds with
  | nil => intro pre last; simp [chapterRuns]
  | cons d ds ih =>
    intro pre last
    rw [List.foldl_cons, groupStep_snoc]
    by_cases h : last.ChapterID = d.ChapterID
    · rw [if_pos h, ih pre (appendedLesson last d)]
      congr 1
      rcases hc : chapterRuns ds with _ | ⟨_ | ⟨e, run⟩, runs⟩
      · simp [chapterRuns, hc, h, appendedLesson, runArticles, runLessons]
      · simp [chapterRuns, hc, h, appendedLesson, runArticles, runLessons]
      · by_cases h2 : d.ChapterID = e.ChapterID
        · simp [chapterRuns, hc, h, h2, appendedLesson, runArticles]
        · simp [chapterRuns, hc, h, h2, appendedLesson, runArticles, runLessons]
    · rw [if_neg h, ih (pre ++ [last]) (openedLesson (pre.length + 1) d)]
      rcases hc : chapterRuns ds with _ | ⟨_ | ⟨e, run⟩, runs⟩
      · simp [chapterRuns, hc, h, openedLesson, runArticles, runLessons]
      · simp [chapterRuns, hc, h, openedLesson, runArticles, runLessons]
      · by_cases h2 : d.ChapterID = e.ChapterID
        · have h3 : ¬last.ChapterID = e.ChapterID := h2 ▸ h
          simp [chapterRuns, hc, h3, h2, openedLesson, runArticles, runLessons]
        · simp [chapterRuns, hc, h, h2, openedLesson, runArticles, runLessons]

theorem foldl_groupStep_nil (ds : List ArticleDetail) :
    ds.foldl groupStep [] = runLessons 0 (chapterRuns ds) := by
  cases ds with
  | nil => simp [chapterRuns, runLessons]
  | cons d ds =>
    rw [List.foldl_cons, groupStep_nil]
    have h := foldl_groupStep_snoc ds [] (openedLesson 0 d)
    simp only [List.nil_append] at h
    rw [h]
    rcases hc : chapterRuns ds with _ | ⟨_ | ⟨e, run⟩, runs⟩
    · simp [chapterRuns, hc, openedLesson, runArticles, runLessons]
    · simp [chapterRuns, hc, openedLesson, runArticles, runLessons]
    · by_cases h2 : d.ChapterID = e.ChapterID
      · simp [chapterRuns, hc, h2, openedLesson, runArticles, runLessons]
      · simp [chapterRuns, hc, h2, openedLesson, runArticles, runLessons]

theorem chapterRuns_const (ds : List ArticleDetail) :
    ∀ r ∈ chapterRuns ds, ∀ x ∈ r, ∀ y ∈ r, x.ChapterID = y.ChapterID := by
  induction ds with
  | nil => simp [chapterRuns]
  | cons d ds ih =>
    rcases hc : chapterRuns ds with _ | ⟨_ | ⟨e, run⟩, runs⟩
    · simp [chapterRuns, hc]
    · simp [chapterRuns, hc]
    · rw [hc] at ih
      have he : ∀ x ∈ e :: run, x.ChapterID = e.ChapterID := fun x hx =>
        ih (e :: run) (by simp) x hx e (by simp)
      by_cases h2 : d.ChapterID = e.ChapterID
      · simp only [chapterRuns, hc, h2, if_true]
        intro r hr
        rcases List.mem_cons.1 hr with rfl | hr
        · intro x hx y hy
          have hx' : x.ChapterID = e.ChapterID := by
            rcases List.mem_cons.1 hx with rfl | hx
            · exact h2
            · exact he x hx
          have hy' : y.ChapterID = e.ChapterID := by
            rcases List.mem_cons.1 hy with rfl | hy
            · exact h2
            · exact he y hy
          rw [hx', hy']
        · exact ih r (List.mem_cons_of_mem _ hr)
      · simp only [chapterRuns, hc, h2, if_false]
        intro r hr
        rcases List.mem_cons.1 hr with rfl | hr
        · intro x hx y hy
          simp only [List.mem_singleton] at hx hy
          rw [hx, hy]
        · exact ih r hr

theorem chapterRuns_chain (ds : List ArticleDetail) :
    List.Chain' (fun r1 r2 : List ArticleDetail => ∀ x ∈ r1, ∀ y ∈ r2, x.ChapterID ≠ y.ChapterID)
      (chapterRuns ds) := by
  induction ds with
  | nil => simp [chapterRuns]
  | cons d ds ih =>
    have hconst := chapterRuns_const ds
    rcases hc : chapterRuns ds with _ | ⟨_ | ⟨e, run⟩, runs⟩
    · simp [chapterRuns, hc]
    · simp [chapterRuns, hc]
    · rw [hc] at ih hconst
      have he : ∀ x ∈ e :: run, x.ChapterID = e.ChapterID := fun x hx =>
        hconst (e :: run) (by simp) x hx e (by simp)
      by_cases h2 : d.ChapterID = e.ChapterID
      · simp only [chapterRuns, hc, h2, if_true]
        cases runs with
        | nil => simp
        | cons r2 rs =>
          rw [List.chain'_cons] at ih ⊢
          refine ⟨?_, ih.2⟩
          intro x hx y hy
          rcases List.mem_cons.1 hx with rfl | hx
          · rw [h2]; exact ih.1 e (by simp) y hy
          · exact ih.1 x hx y hy
      · simp only [chapterRuns, hc, h2, if_false]
        rw [List.chain'_cons]
        refine ⟨?_, ih⟩
        intro x hx y hy
        simp only [List.mem_singleton] at hx
        rw [hx, he y hy]
        exact h2

theorem runArticles_get (ds : List ArticleDetail) :
    ∀ (k n : Nat), (runArticles k ds)[n]? = (ds[n]?).map (fun d =>
      ({ ArticleID := d.ID, ArticleTitle := d.Title, IndexNo := k + n + 1 } : RArticle)) := by
  induction ds with
  | nil => intro k n; simp [runArticles]
  | cons d ds ih =>
    intro k n
    cases n with
    | zero => simp [runArticles]
    | succ n => simp [runArticles, ih, Nat.add_assoc, Nat.add_comm 1]

theorem runArticles_length (ds : List ArticleDetail) :
    ∀ k, (runArticles k ds).length = ds.length := by
  induction ds with
  | nil => intro k; simp [runArticles]
  | cons d ds ih => intro k; simp [runArticles, ih]

theorem runLessons_get (runs : List (List ArticleDetail)) (hnil : [] ∉ runs) :
    ∀ (j n : Nat), (runLessons j runs)[n]? = (runs[n]?).bind (fun run => run.head?.map (fun d =>
      ({ ChapterName := d.ChapterTitle, ChapterID := d.ChapterID, IndexNo := j + n + 1,
         Articles := runArticles 0 run } : Lesson))) := by
  induction runs with
  | nil => intro j n; simp [runLessons]
  | cons r runs ih =>
    intro j n
    cases r with
    | nil => simp at hnil
    | cons d ds =>
      have hnil' : [] ∉ runs := fun h => hnil (List.mem_cons_of_mem _ h)
      cases n with
      | zero => simp [runLessons]
      | succ n => simp [runLessons, ih hnil', Nat.add_assoc, Nat.add_comm 1]

theorem runLessons_length (runs : List (List ArticleDetail)) (hnil : [] ∉ runs) :
    ∀ j, (runLessons j runs).length = runs.length := by
  induction runs with
  | nil => intro j; simp [runLessons]
  | cons r runs ih =>
    intro j
    cases r with
    | nil => simp at hnil
    | cons d ds =>
      have hnil' : [] ∉ runs := fun h => hnil (List.mem_cons_of_mem _ h)
      simp [runLessons, ih hnil']

theorem loadArticlesLoop_spec (env : Env) (d : Int → ArticleDetail)
    (hdet : ∀ h aid, env.postV3ArticleInfo h aid = Except.ok (d aid)) (as : List Article) :
    ∀ s : St, loadArticlesLoop env as s =
      (Outcome.ret (), { s with
        trace := s.trace ++ as.map (fun a => Event.postV3ArticleInfo a.AID),
        currentProduct := { s.currentProduct with
          Lessons := (as.map (fun a => d a.AID)).foldl groupStep s.currentProduct.Lessons } }) := by
  induction as with
  | nil => intro s; simp [loadArticlesLoop, pure_eq, M.pure_run]
  | cons a as ih =>
    intro s
    simp only [loadArticlesLoop, bind_eq, M.bind_call, M.bind_checked, M.bind_modifySt,
      M.bind_assoc, hdet, ih]
    simp

theorem loadArticlesLoop_keeps (env : Env) (as : List Article) :
    ∀ s : St, ∃ new o ls, loadArticlesLoop env as s =
      (o, { s with trace := s.trace ++ new,
                   currentProduct := { s.currentProduct with Lessons := ls } }) ∧
      (o = Outcome.ret () ∨ o = Outcome.exited) := by
  induction as with
  | nil =>
    intro s
    exact ⟨[], _, s.currentProduct.Lessons, by simp [loadArticlesLoop, pure_eq, M.pure_run],
      Or.inl rfl⟩
  | cons a as ih =>
    intro s
    simp only [loadArticlesLoop, bind_eq, M.bind_call, M.bind_checked, M.bind_modifySt,
      M.bind_assoc]
    cases env.postV3ArticleInfo s.trace a.AID with
    | error e =>
      exact ⟨[Event.postV3ArticleInfo a.AID, Event.exit e], _, s.currentProduct.Lessons,
        by simp, Or.inr rfl⟩
    | ok x =>
      simp only []
      obtain ⟨new, o, ls, hrun, ho⟩ := ih { s with
        trace := s.trace ++ [Event.postV3ArticleInfo a.AID],
        currentProduct := { s.currentProduct with
          Lessons := groupStep s.currentProduct.Lessons x } }
      exact ⟨Event.postV3ArticleInfo a.AID :: new, o, ls, by simpa using hrun, ho⟩

theorem loadArticles_cached_run (env : Env) (s : St)
    (h : s.currentProduct.Articles ≠ []) : loadArticles env s = (Outcome.ret (), s) := by
  have hlen : s.currentProduct.Articles.length > 0 := List.length_pos.2 h
  simp [loadArticles, bind_eq, pure_eq, M.bind_getSt, hlen, M.pure_run]

theorem loadArticles_fresh_run (env : Env) (s : St) (h : s.currentProduct.Articles = []) :
    loadArticles env s =
      match env.postV1ColumnArticles (s.trace ++ [Event.spinner true])
          (toString s.currentProduct.ID) with
      | Except.error e => (Outcome.exited, { s with trace := s.trace ++
          [Event.spinner true, Event.postV1ColumnArticles (toString s.currentProduct.ID),
           Event.exit e] })
      | Except.ok articles =>
        M.bind (loadArticlesLoop env articles) (fun _ => emit (Event.spinner false))
          { s with
            trace := s.trace ++
              [Event.spinner true, Event.postV1ColumnArticles (toString s.currentProduct.ID)],
            currentProduct := { s.currentProduct with
              Articles := articles, Total := articles.length } } := by
  simp only [loadArticles, bind_eq, pure_eq, M.bind_getSt, h, List.length_nil, gt_iff_lt,
    lt_self_iff_false, ↓reduceIte, M.bind_emit, M.bind_call, M.bind_checked, M.bind_modifySt,
    M.bind_assoc, M.bind_pure_left]
  cases env.postV1ColumnArticles (s.trace ++ [Event.spinner true])
      (toString s.currentProduct.ID) with
  | error e => simp
  | ok articles => simp

theorem detailReports_append (total : Nat) (xs ys : List ArticleDetail) (i : Nat) :
    detailReports total i (xs ++ ys)
      = detailReports total i xs ++ detailReports total (i + xs.length) ys := by
  induction xs generalizing i with
  | nil => simp [detailReports]
  | cons x xs ih => simp [detailReports, ih, Nat.add_assoc, Nat.add_comm 1]

theorem detailReports_get (total : Nat) (ds : List ArticleDetail) :
    ∀ (i k : Nat), (detailReports total i ds)[k]?
      = (ds[k]?).map (fun x => (total, i + k + 1, x.Title)) := by
  induction ds with
  | nil => intro i k; simp [detailReports]
  | cons x ds ih =>
    intro i k
    cases k with
    | zero => simp [detailReports]
    | succ k => simp [detailReports, ih, Nat.add_assoc, Nat.add_comm 1]

theorem detailReports_length (total : Nat) (ds : List ArticleDetail) :
    ∀ i, (detailReports total i ds).length = ds.length := by
  induction ds with
  | nil => intro i; simp [detailReports]
  | cons x ds ih => intro i; simp [detailReports, ih]

theorem articleReportsFrom_runArticles (total : Nat) (ds : List ArticleDetail) :
    ∀ i k, articleReportsFrom total i (runArticles k ds) = detailReports total i ds := by
  induction ds with
  | nil => intro i k; simp [runArticles, articleReportsFrom, detailReports]
  | cons x ds ih => intro i k; simp [runArticles, articleReportsFrom, detailReports, ih]

theorem articleReportsFrom_runLessons (total : Nat) (runs : List (List ArticleDetail)) :
    ∀ i j, articleReportsFrom total i ((runLessons j runs).flatMap (fun l => l.Articles))
      = detailReports total i runs.flatten := by
  induction runs with
  | nil => intro i j; simp [runLessons, articleReportsFrom, detailReports]
  | cons r runs ih =>
    intro i j
    cases r with
    | nil => simpa [runLessons] using ih i j
    | cons x xs =>
      simp only [runLessons, List.flatMap_cons, articleReportsFrom_append,
        articleReportsFrom_runArticles, ih, List.flatten_cons, detailReports_append,
        runArticles_length]

theorem runLessons_articles (runs : List (List ArticleDetail)) :
    ∀ j, (runLessons j runs).flatMap (fun l => l.Articles.map
        (fun a => (a.ArticleID, a.ArticleTitle)))
      = runs.flatten.map (fun x => (x.ID, x.Title)) := by
  have hrun : ∀ (ds : List ArticleDetail) (k : Nat),
      (runArticles k ds).map (fun a => (a.ArticleID, a.ArticleTitle))
        = ds.map (fun x => (x.ID, x.Title)) := by
    intro ds
    induction ds with
    | nil => intro k; simp [runArticles]
    | cons x ds ih => intro k; simp [runArticles, ih]
  induction runs with
  | nil => intro j; simp [runLessons]
  | cons r runs ih =>
    intro j
    cases r with
    | nil => simpa [runLessons] using ih j
    | cons x xs => simp only [runLessons, List.flatMap_cons, hrun, ih, List.flatten_cons,
        List.map_append]

theorem runArticles_indices (ds : List ArticleDetail) :
    ∀ k, (∀ a ∈ runArticles k ds, k < a.IndexNo) ∧
      List.Pairwise (fun a b : RArticle => a.IndexNo < b.IndexNo) (runArticles k ds) := by
  induction ds with
  | nil => intro k; simp [runArticles]
  | cons x ds ih =>
    intro k
    obtain ⟨h1, h2⟩ := ih (k + 1)
    refine ⟨?_, ?_⟩
    · intro a ha
      simp only [runArticles, List.mem_cons] at ha
      rcases ha with rfl | ha
      · simp
      · have := h1 a ha; omega
    · simp only [runArticles, List.pairwise_cons]
      refine ⟨?_, h2⟩
      intro b hb
      have := h1 b hb
      simpa using this

theorem indexPairs_runLessons (runs : List (List ArticleDetail)) :
    ∀ j, (∀ p ∈ indexPairs (runLessons j runs), j < p.1) ∧
      List.Pairwise lexLt (indexPairs (runLessons j runs)) := by
  induction runs with
  | nil => intro j; simp [runLessons, indexPairs]
  | cons r runs ih =>
    intro j
    cases r with
    | nil => simpa [runLessons] using ih j
    | cons x xs =>
      obtain ⟨h1, h2⟩ := ih (j + 1)
      obtain ⟨-, g2⟩ := runArticles_indices (x :: xs) 0
      have hcons : indexPairs (runLessons j ((x :: xs) :: runs))
          = (runArticles 0 (x :: xs)).map (fun a => (j + 1, a.IndexNo))
            ++ indexPairs (runLessons (j + 1) runs) := by
        simp [indexPairs, runLessons]
      rw [hcons]
      refine ⟨?_, ?_⟩
      · intro p hp
        rcases List.mem_append.1 hp with hp | hp
        · obtain ⟨a, -, rfl⟩ := List.mem_map.1 hp
          simp
        · have := h1 p hp; omega
      · rw [List.pairwise_append]
        refine ⟨?_, h2, ?_⟩
        · rw [List.pairwise_map]
          exact g2.imp (fun h => Or.inr ⟨rfl, h⟩)
        · intro p hp q hq
          obtain ⟨a, -, rfl⟩ := List.mem_map.1 hp
          exact Or.inl (h1 q hq)

theorem M.bind_mkDownloadProjectDir {β : Type} (cfg : Config) (env : Env) (name : String)
    (f : String → M β) (s : St) :
    M.bind (mkDownloadProjectDir cfg env name) f s =
      match env.mkdirAll s.trace (projectDirOf cfg env name) with
      | some e => (Outcome.exited, { s with trace := s.trace ++
          [Event.mkdirAll (projectDirOf cfg env name), Event.exit e] })
      | none => f (projectDirOf cfg env name)
          { s with trace := s.trace ++ [Event.mkdirAll (projectDirOf cfg env name)] } := by
  simp only [mkDownloadProjectDir, bind_eq, pure_eq, M.bind_assoc, M.bind_call,
    M.bind_checkError, M.bind_pure_left]
  cases env.mkdirAll s.trace (projectDirOf cfg env name) <;> simp

theorem downloadAllLoaded_spec (cfg : Config) (env : Env) (s : St)
    (htext : isText s.currentProduct = true) :
    ∃ new o, downloadAllLoaded cfg env s = (o, { s with trace := s.trace ++ new }) ∧
      new.filterMap Event.articleReport
        <+: articleReportsFrom s.currentProduct.Total 0
              (s.currentProduct.Lessons.flatMap (fun l => l.Articles)) ∧
      ((∃ b, o = Outcome.ret b) →
        new.filterMap Event.articleReport
          = articleReportsFrom s.currentProduct.Total 0
              (s.currentProduct.Lessons.flatMap (fun l => l.Articles))) ∧
      (∀ e ∈ new, e.handed = none ∨
        ∃ l ∈ s.currentProduct.Lessons, ∃ a ∈ l.Articles,
          e.handed = some (chapterDirOf env (projectDirOf cfg env s.currentProduct.Title) l,
            env.filenamify a.ArticleTitle)) := by
  simp only [downloadAllLoaded, bind_eq, pure_eq, M.bind_getSt, M.bind_mkDownloadProjectDir,
    M.bind_call, M.bind_checkError, M.bind_assoc, htext, ↓reduceIte, M.bind_emit, M.bind_ite,
    M.bind_pure_left]
  cases env.mkdirAll s.trace (projectDirOf cfg env s.currentProduct.Title) with
  | some e =>
    exact ⟨_, _, rfl, by simp [Event.articleReport], by simp, by simp [Event.handed]⟩
  | none =>
    simp only []
    cases hscan : (findDownloadedArticleFileNames env.join
        (env.dirState (s.trace ++ [Event.mkdirAll (projectDirOf cfg env s.currentProduct.Title)]))
        (projectDirOf cfg env s.currentProduct.Title)).2 with
    | some e =>
      simp only []
      exact ⟨[Event.mkdirAll (projectDirOf cfg env s.currentProduct.Title),
        Event.readDir (projectDirOf cfg env s.currentProduct.Title), Event.exit e],
        Outcome.exited, by simp, by simp [Event.articleReport], by simp, by simp [Event.handed]⟩
    | none =>
      simp only []
      -- the events before the loop
      have hloop : ∀ (pre : List Event), (∀ e ∈ pre, e.articleReport = none ∧ e.handed = none) →
          ∀ b : Bool, ∃ new o,
          M.bind (textLessonsLoop cfg env
              (findDownloadedArticleFileNames env.join
                (env.dirState (s.trace ++
                  [Event.mkdirAll (projectDirOf cfg env s.currentProduct.Title)]))
                (projectDirOf cfg env s.currentProduct.Title)).1
              (projectDirOf cfg env s.currentProduct.Title) 0 s.currentProduct.Lessons)
            (fun _ => M.pure b) { s with trace := s.trace ++ pre }
            = (o, { s with trace := s.trace ++ new }) ∧
          new.filterMap Event.articleReport
            <+: articleReportsFrom s.currentProduct.Total 0
                  (s.currentProduct.Lessons.flatMap (fun l => l.Articles)) ∧
          ((∃ b, o = Outcome.ret b) →
            new.filterMap Event.articleReport
              = articleReportsFrom s.currentProduct.Total 0
                  (s.currentProduct.Lessons.flatMap (fun l => l.Articles))) ∧
          (∀ e ∈ new, e.handed = none ∨
            ∃ l ∈ s.currentProduct.Lessons, ∃ a ∈ l.Articles,
              e.handed = some (chapterDirOf env (projectDirOf cfg env s.currentProduct.Title) l,
                env.filenamify a.ArticleTitle)) := by
        intro pre hpre b
        obtain ⟨new1, o1, hrun, ho, hp, heq, hall⟩ := textLessonsLoop_spec cfg env
          (findDownloadedArticleFileNames env.join
            (env.dirState (s.trace ++
              [Event.mkdirAll (projectDirOf cfg env s.currentProduct.Title)]))
            (projectDirOf cfg env s.currentProduct.Title)).1
          (projectDirOf cfg env s.currentProduct.Title) s.currentProduct.Lessons 0
          { s with trace := s.trace ++ pre }
        have hf : List.filterMap Event.articleReport pre = [] := by
          rw [List.filterMap_eq_nil_iff]; intro e he; exact (hpre e he).1
        simp only [M.bind, hrun]
        rcases ho with rfl | rfl
        · refine ⟨pre ++ new1, Outcome.ret b, by simp [M.pure], ?_, ?_, ?_⟩
          · simpa [hf] using hp
          · intro _; simpa [hf] using heq rfl
          · intro e he
            rcases List.mem_append.1 he with he | he
            · exact Or.inl (hpre e he).2
            · exact (hall e he).2
        · refine ⟨pre ++ new1, Outcome.exited, by simp, ?_, ?_, ?_⟩
          · simpa [hf] using hp
          · rintro ⟨b, hb⟩; cases hb
          · intro e he
            rcases List.mem_append.1 he with he | he
            · exact Or.inl (hpre e he).2
            · exact (hall e he).2
      by_cases hpdf : (cfg.columnOutputType &&& 1 == 1) = true
      · simp only [hpdf, ↓reduceIte, M.bind_call, M.bind_checkError, M.bind_assoc,
          M.bind_pure_left]
        split
        · have := hloop [Event.mkdirAll (projectDirOf cfg env s.currentProduct.Title),
            Event.readDir (projectDirOf cfg env s.currentProduct.Title),
            Event.printAll s.currentProduct.Title, Event.chromedpRun]
            (by simp [Event.articleReport, Event.handed]) true
          simpa using this
        · rename_i e _
          exact ⟨[Event.mkdirAll (projectDirOf cfg env s.currentProduct.Title),
            Event.readDir (projectDirOf cfg env s.currentProduct.Title),
            Event.printAll s.currentProduct.Title, Event.chromedpRun, Event.exit e],
            Outcome.exited, by simp, by simp [Event.articleReport], by simp,
            by simp [Event.handed]⟩
      · simp only [hpdf, Bool.false_eq_true, ↓reduceIte, M.bind_pure_left]
        have := hloop [Event.mkdirAll (projectDirOf cfg env s.currentProduct.Title),
          Event.readDir (projectDirOf cfg env s.currentProduct.Title),
          Event.printAll s.currentProduct.Title]
          (by simp [Event.articleReport, Event.handed]) false
        simpa using this

theorem loadArticles_result (env : Env) (s : St) (articles : List Article)
    (d : Int → ArticleDetail)
    (hA : s.currentProduct.Articles = []) (hL : s.currentProduct.Lessons = [])
    (hlist : env.postV1ColumnArticles (s.trace ++ [Event.spinner true])
      (toString s.currentProduct.ID) = Except.ok articles)
    (hdet : ∀ h aid, env.postV3ArticleInfo h aid = Except.ok (d aid)) :
    loadArticles env s = (Outcome.ret (), { s with
      trace := s.trace ++
        ([Event.spinner true, Event.postV1ColumnArticles (toString s.currentProduct.ID)] ++
        articles.map (fun a => Event.postV3ArticleInfo a.AID) ++ [Event.spinner false]),
      currentProduct := { s.currentProduct with
        Articles := articles, Total := articles.length,
        Lessons := runLessons 0 (chapterRuns (articles.map (fun a => d a.AID))) } }) := by
  simp only [loadArticles_fresh_run env s hA, hlist, M.bind,
    loadArticlesLoop_spec env d hdet, emit_run, hL, foldl_groupStep_nil]
  simp

theorem flatMap_map_length {β : Type} (ls : List Lesson) (f : Lesson → RArticle → β) :
    (ls.flatMap (fun l => l.Articles.map (f l))).length
      = (ls.flatMap (fun l => l.Articles)).length := by
  induction ls with
  | nil => simp
  | cons l ls ih => simp [List.flatMap_cons, ih]

theorem scanLoop_error_iff (join : String → String → String) (fs : String → DirState)
    (projectDir : String) (files : List DirEntry) :
    ∀ res : Presence, (scanLoop join fs projectDir files res).2 ≠ none ↔
      ∃ f ∈ files, f.IsDir = true ∧ ∀ sub, fs (join projectDir f.Name) ≠ DirState.entries sub := by
  induction files with
  | nil => intro res; simp [scanLoop]
  | cons f files ih =>
    intro res
    simp only [scanLoop]
    by_cases hd : f.IsDir = true
    · simp only [hd, ↓reduceIte]
      cases hfs : fs (join projectDir f.Name) with
      | missing => simp [osReadDir, hd, hfs]
      | unreadable e => simp [osReadDir, hd, hfs]
      | entries sub =>
        simp only [osReadDir, ih]
        constructor
        · rintro ⟨g, hg, h1, h2⟩
          exact ⟨g, List.mem_cons_of_mem _ hg, h1, h2⟩
        · rintro ⟨g, hg, h1, h2⟩
          rcases List.mem_cons.1 hg with rfl | hg
          · exact absurd hfs (h2 sub)
          · exact ⟨g, hg, h1, h2⟩
    · simp only [hd, Bool.false_eq_true, ↓reduceIte, ih]
      constructor
      · rintro ⟨g, hg, h1, h2⟩
        exact ⟨g, List.mem_cons_of_mem _ hg, h1, h2⟩
      · rintro ⟨g, hg, h1, h2⟩
        rcases List.mem_cons.1 hg with rfl | hg
        · exact absurd h1 hd
        · exact ⟨g, hg, h1, h2⟩

theorem NoRet.bind_left {α β : Type} {m : M α} (h : NoRet m) (f : α → M β) :
    NoRet (M.bind m f) := by
  intro s b
  have := h s
  simp only [M.bind]
  rcases hm : m s with ⟨o, s1⟩
  rw [hm] at this
  cases o with
  | ret a => exact absurd rfl (this a)
  | exited => simp
  | panicked => simp
  | pending => simp

theorem NoRet.bind_right {α β : Type} (m : M α) {f : α → M β} (h : ∀ a, NoRet (f a)) :
    NoRet (M.bind m f) := by
  intro s b
  simp only [M.bind]
  rcases m s with ⟨o, s1⟩
  cases o with
  | ret a => exact h a s1 b
  | exited => simp
  | panicked => simp
  | pending => simp

theorem NoRet.panicNow {α : Type} : NoRet (panicNow : M α) := by
  intro s a; simp [Geektime.panicNow]

theorem NoRet.pendingNow {α : Type} : NoRet (pendingNow : M α) := by
  intro s a; simp [Geektime.pendingNow]

theorem M.bind_eq_of_noRet {α : Type} {m : M α} (h : NoRet m) (f : α → M α) (s : St) :
    M.bind m f s = m s := by
  have := h s
  simp only [M.bind]
  rcases hm : m s with ⟨o, s1⟩
  rw [hm] at this
  cases o with
  | ret a => exact absurd rfl (this a)
  | exited => rfl
  | panicked => rfl
  | pending => rfl

theorem run_noRet (cfg : Config) (env : Env)
    (hsel : ∀ h m k i, env.selectRun h m k = Except.ok i → 0 ≤ i ∧ i < (k : Int)) :
    ∀ (n : Nat) (f : Fn), (∀ id, f ≠ Fn.loadProduct id) → NoRet (run cfg env n f) := by
  intro n
  induction n with
  | zero => intro f _; cases f <;> exact NoRet.pendingNow
  | succ n ih =>
    intro f hf
    cases f with
    | loadProduct id => exact absurd rfl (hf id)
    | selectProductType =>
      simp only [run, bind_eq]
      apply NoRet.bind_right; intro r
      apply NoRet.bind_right; intro index
      split
      · exact NoRet.panicNow
      · apply NoRet.bind_right; intro _
        exact ih _ (by intro id h; cases h)
    | letInputProductID =>
      simp only [run, bind_eq]
      apply NoRet.bind_right; intro r
      apply NoRet.bind_right; intro str
      apply NoRet.bind_right; intro s
      split
      · apply NoRet.bind_right; intro _
        exact ih _ (by intro id h; cases h)
      · apply NoRet.bind_right; intro r
        apply NoRet.bind_right; intro info
        apply NoRet.bind_right; intro c
        split
        · apply NoRet.bind_right; intro _
          apply NoRet.bind_right; intro _
          apply NoRet.bind_right; intro _
          exact ih _ (by intro id h; cases h)
        · apply NoRet.bind_right; intro _
          exact ih _ (by intro id h; cases h)
    | productOps =>
      intro s a
      simp only [run, bind_eq, M.bind_call, M.bind_checked, M.bind_assoc]
      cases hr : env.selectRun s.trace Menu.productOps 3 with
      | error e => simp
      | ok index =>
        have hb := hsel _ _ _ _ hr
        have h3 : index = 0 ∨ index = 1 ∨ index = 2 := by omega
        rcases h3 with rfl | rfl | rfl
        · exact ih _ (by intro id h; cases h) _ a
        · exact ih _ (by intro id h; cases h) _ a
        · exact ih _ (by intro id h; cases h) _ a
    | selectArticle =>
      simp only [run, bind_eq]
      apply NoRet.bind_right; intro _
      apply NoRet.bind_right; intro s
      apply NoRet.bind_right; intro r
      apply NoRet.bind_right; intro index
      exact ih _ (by intro id h; cases h)
    | handleSelectArticle index =>
      simp only [run, bind_eq]
      split
      · apply NoRet.bind_left
        exact ih _ (by intro id h; cases h)
      · apply NoRet.bind_right; intro _
        apply NoRet.bind_right; intro s
        split
        · exact NoRet.panicNow
        · apply NoRet.bind_right; intro _
          apply NoRet.bind_right; intro _
          apply NoRet.bind_right; intro _
          apply NoRet.bind_right; intro _
          exact ih _ (by intro id h; cases h)
    | handleDownloadAll =>
      simp only [run, bind_eq]
      apply NoRet.bind_right; intro deferred
      apply NoRet.bind_left
      exact ih _ (by intro id h; cases h)


theorem goIndex_in_bounds {α : Type} (xs : List α) (i : Int) (h1 : 1 ≤ i)
    (h2 : i ≤ (xs.length : Int)) :
    ∃ a, xs[(i - 1).toNat]? = some a ∧ goIndex xs (i - 1) = some a := by
  have hlt : (i - 1).toNat < xs.length := by omega
  refine ⟨xs[(i - 1).toNat], by simp [hlt], ?_⟩
  have hneg : ¬(i - 1 < 0) := by omega
  simp [goIndex, hneg, hlt]

theorem lessonIds_cons (l : Lesson) (ls : List Lesson) :
    lessonIds (l :: ls) = l.Articles.map (fun a => a.ArticleID) ++ lessonIds ls := by
  simp [lessonIds]

theorem mem_lessonIds (ls : List Lesson) (aid : Int) :
    aid ∈ lessonIds ls ↔ ∃ l ∈ ls, ∃ x ∈ l.Articles, x.ArticleID = aid := by
  simp [lessonIds, List.mem_flatMap]

theorem any_articleID (l : Lesson) (aid : Int) :
    l.Articles.any (fun a => a.ArticleID == aid) = true ↔ ∃ x ∈ l.Articles, x.ArticleID = aid := by
  simp [List.any_eq_true]

theorem getLesson_ok (ls : List Lesson) (aid : Int) (l : Lesson)
    (h : getLesson ls aid = Except.ok l) :
    l ∈ ls ∧ ∃ x ∈ l.Articles, x.ArticleID = aid := by
  induction ls with
  | nil => simp [getLesson] at h
  | cons l0 ls ih =>
    simp only [getLesson] at h
    split at h
    · rename_i hany
      cases h
      exact ⟨by simp, (any_articleID l aid).1 hany⟩
    · obtain ⟨h1, h2⟩ := ih h
      exact ⟨List.mem_cons_of_mem _ h1, h2⟩

theorem getLesson_found (ls : List Lesson) (aid : Int)
    (h : ∃ l ∈ ls, ∃ x ∈ l.Articles, x.ArticleID = aid) : ∃ l, getLesson ls aid = Except.ok l := by
  induction ls with
  | nil => simp at h
  | cons l0 ls ih =>
    simp only [getLesson]
    split
    · exact ⟨l0, rfl⟩
    · rename_i hany
      obtain ⟨l, hl, hx⟩ := h
      rcases List.mem_cons.1 hl with rfl | hl
      · exact absurd ((any_articleID l aid).2 hx) hany
      · exact ih ⟨l, hl, hx⟩

theorem getLesson_not_found (ls : List Lesson) (aid : Int)
    (h : ∀ l ∈ ls, ∀ x ∈ l.Articles, x.ArticleID ≠ aid) :
    getLesson ls aid = Except.error "not found" := by
  induction ls with
  | nil => rfl
  | cons l0 ls ih =>
    simp only [getLesson]
    split
    · rename_i hany
      obtain ⟨x, hx, hxa⟩ := (any_articleID l0 aid).1 hany
      exact absurd hxa (h l0 (by simp) x hx)
    · exact ih (fun l hl => h l (List.mem_cons_of_mem _ hl))

theorem getLesson_unique (ls : List Lesson) (hnd : (lessonIds ls).Nodup) :
    ∀ l ∈ ls, ∀ x ∈ l.Articles, getLesson ls x.ArticleID = Except.ok l := by
  induction ls with
  | nil => simp
  | cons l0 ls ih =>
    rw [lessonIds_cons, List.nodup_append] at hnd
    obtain ⟨-, hnd2, hdisj⟩ := hnd
    intro l hl x hx
    simp only [getLesson]
    by_cases hany : l0.Articles.any (fun a => a.ArticleID == x.ArticleID) = true
    · rw [if_pos hany]
      rcases List.mem_cons.1 hl with rfl | hl
      · rfl
      · exfalso
        obtain ⟨y, hy, hyx⟩ := (any_articleID l0 x.ArticleID).1 hany
        have h1 : x.ArticleID ∈ l0.Articles.map (fun a => a.ArticleID) :=
          List.mem_map.2 ⟨y, hy, hyx⟩
        have h2 : x.ArticleID ∈ lessonIds ls := (mem_lessonIds ls _).2 ⟨l, hl, x, hx, rfl⟩
        exact hdisj h1 h2
    · rw [if_neg hany]
      rcases List.mem_cons.1 hl with rfl | hl
      · exact absurd ((any_articleID l x.ArticleID).2 ⟨x, hx, rfl⟩) hany
      · exact ih hnd2 l hl x hx

theorem lessonIds_runLessons (runs : List (List ArticleDetail)) :
    ∀ j, lessonIds (runLessons j runs) = runs.flatten.map (fun x => x.ID) := by
  have hrun : ∀ (ds : List ArticleDetail) (k : Nat),
      (runArticles k ds).map (fun a => a.ArticleID) = ds.map (fun x => x.ID) := by
    intro ds
    induction ds with
    | nil => intro k; simp [runArticles]
    | cons x ds ih => intro k; simp [runArticles, ih]
  induction runs with
  | nil => intro j; simp [runLessons, lessonIds]
  | cons r runs ih =>
    intro j
    cases r with
    | nil => simpa [runLessons] using ih j
    | cons x xs =>
      simp only [runLessons, lessonIds_cons, hrun, ih, List.flatten_cons, List.map_append]

theorem downloadArticle_dir (cfg : Config) (env : Env) (article : Article) (projectDir : String)
    (s : St) (l : Lesson) (hg : getLesson s.currentProduct.Lessons article.AID = Except.ok l) :
    downloadArticle cfg env article projectDir s =
      match env.mkdirAll s.trace (chapterDirOf env projectDir l) with
      | some e => (Outcome.exited, { s with trace := s.trace ++
          [Event.mkdirAll (chapterDirOf env projectDir l), Event.exit e] })
      | none =>
        (if isText s.currentProduct then
          downloadArticleText cfg env article (chapterDirOf env projectDir l)
        else if isVideo s.currentProduct then
          downloadArticleVideoBranch cfg env article (chapterDirOf env projectDir l)
        else M.pure ())
          { s with trace := s.trace ++ [Event.mkdirAll (chapterDirOf env projectDir l)] } := by
  simp only [downloadArticle, bind_eq, pure_eq, M.bind_getSt, M.bind_checked, M.bind_call,
    M.bind_checkError, M.bind_assoc, hg, chapterDirOf]
  cases env.mkdirAll s.trace
    (env.join projectDir (env.filenamify (toString l.IndexNo ++ "." ++ l.ChapterName))) with
  | some e => simp
  | none => rfl

/-! ## Claims -/

/-- C1: in the download-all path of a text product, for a requested mask `R` in 1..7 and the
present mask `P` read from the presence index (bit 0/1/2 set exactly when the pdf/md/mp3 file
of the sanitized title is listed for the chapter), the collaborators invoked for the article are
the bits of `N = R &^ P`.  The calls made are always a prefix of `neededCalls N` (rendering on
bit 0, then the shared detail fetch on bit 1 or 2, then the text fetch on bit 1, then the audio
fetch on bit 2), and they are exactly `neededCalls N`, each kind once on its bit and never
otherwise, whenever the rendering call (if bit 0 is set) and the detail fetch (if bit 1 or 2 is
set) do not answer with an error, whatever the text and the audio fetch answer.  A rendering
error stops the run after the call `[render]`, a detail error after the detail fetch.  With
`P = R` nothing is invoked, and `7 &^ 1 = 6`. -/
theorem downloadAll_invokes_needed_kinds (cfg : Config) (env : Env) (downloaded : Presence)
    (chapterName chapterDir : String) (i : Nat) (a : RArticle) (s : St)
    (hR1 : 1 ≤ cfg.columnOutputType) (hR7 : cfg.columnOutputType ≤ 7) :
    let title := env.filenamify a.ArticleTitle
    let P := presentMask env downloaded chapterName title
    let N := andNot cfg.columnOutputType P
    let out := textArticleBody cfg env downloaded chapterName chapterDir i a s
    let new := eventsAfter s.trace.length out.2.trace
    let reported := s.trace ++ [Event.reportArticle s.currentProduct.Total (i + 1) a.ArticleTitle]
    let renderAnswer := env.printArticlePageToPDF reported a.ArticleID chapterDir title
    let detailAnswer := env.getArticleInfo (reported ++
      if N.testBit 0 then [Event.printArticlePageToPDF a.ArticleID chapterDir title
        cfg.downloadComments] else []) a.ArticleID
    (P ≤ 7 ∧ P.testBit 0 = hasFile downloaded chapterName (title ++ env.pdfExt) ∧
      P.testBit 1 = hasFile downloaded chapterName (title ++ env.mdExt) ∧
      P.testBit 2 = hasFile downloaded chapterName (title ++ env.mp3Ext)) ∧
    (N.testBit 0 = (cfg.columnOutputType.testBit 0 && !P.testBit 0) ∧
      N.testBit 1 = (cfg.columnOutputType.testBit 1 && !P.testBit 1) ∧
      N.testBit 2 = (cfg.columnOutputType.testBit 2 && !P.testBit 2)) ∧
    out.2.trace = s.trace ++ new ∧
    new.countP Event.isRender = (N.testBit 0).toNat ∧
    new.countP Event.isDetail ≤ (N.testBit 1 || N.testBit 2).toNat ∧
    new.countP Event.isTextFetch ≤ (N.testBit 1).toNat ∧
    new.countP Event.isAudioFetch ≤ (N.testBit 2).toNat ∧
    (out.1 = Outcome.ret (i + 1) →
      new.countP Event.isDetail = (N.testBit 1 || N.testBit 2).toNat ∧
      new.countP Event.isTextFetch = (N.testBit 1).toNat ∧
      new.countP Event.isAudioFetch = (N.testBit 2).toNat) ∧
    (P = cfg.columnOutputType →
      new = [Event.reportArticle s.currentProduct.Total (i + 1) a.ArticleTitle]) ∧
    andNot 7 1 = 6 ∧
    callKinds new <+: neededCalls N ∧
    ((N.testBit 0 = true → renderAnswer = none) →
      ((N.testBit 1 || N.testBit 2) = true → ∃ info, detailAnswer = Except.ok info) →
      callKinds new = neededCalls N ∧
      new.countP Event.isRender = (N.testBit 0).toNat ∧
      new.countP Event.isDetail = (N.testBit 1 || N.testBit 2).toNat ∧
      new.countP Event.isTextFetch = (N.testBit 1).toNat ∧
      new.countP Event.isAudioFetch = (N.testBit 2).toNat) ∧
    (∀ e, N.testBit 0 = true → renderAnswer = some e →
      callKinds new = [Kind.render] ∧ out.1 = Outcome.exited) ∧
    (∀ e, (N.testBit 0 = true → renderAnswer = none) → (N.testBit 1 || N.testBit 2) = true →
      detailAnswer = Except.error e →
      callKinds new = (if N.testBit 0 then [Kind.render] else []) ++ [Kind.detail] ∧
        out.1 = Outcome.exited) ∧
    (out.1 = Outcome.ret (i + 1) → callKinds new = neededCalls N) := by
  intro title P N out new reported renderAnswer detailAnswer
  have hP := presentMask_spec env downloaded chapterName title
  have hb := andNot_bits cfg.columnOutputType (by omega) P (by have := hP.1; omega)
  obtain ⟨hb0, hb1, hb2, hc0, hc1, hc2, -⟩ := hb
  refine ⟨hP, ⟨hc0, hc1, hc2⟩, ?_⟩
  have hout : out = _ := textArticleBody_run cfg env downloaded chapterName chapterDir i a s
  have hcount := callsOf_count (N.testBit 0) (N.testBit 1) (N.testBit 2)
  by_cases hskip : skipTest cfg.columnOutputType P = true
  · have hPR : P = cfg.columnOutputType := by simpa [skipTest] using hskip
    have hn0 : N.testBit 0 = false := by rw [hc0, hPR]; simp
    have hn1 : N.testBit 1 = false := by rw [hc1, hPR]; simp
    have hn2 : N.testBit 2 = false := by rw [hc2, hPR]; simp
    have hout2 : out = (Outcome.ret (i + 1), { s with trace := s.trace ++
          [Event.reportArticle s.currentProduct.Total (i + 1) a.ArticleTitle] }) := by
      rw [hout]; exact if_pos hskip
    have hnew : new = [Event.reportArticle s.currentProduct.Total (i + 1) a.ArticleTitle] := by
      simp [new, hout2, eventsAfter]
    simp only [neededCalls]
    rw [hnew, hn0, hn1, hn2]
    simp [hout2, Event.isRender, Event.isDetail, Event.isTextFetch, Event.isAudioFetch,
      callKinds, callsOf, Event.kind]
    decide
  · have hPR : P ≠ cfg.columnOutputType := by simpa [skipTest] using hskip
    obtain ⟨new1, o, hrun, ho, hr, hd, htx, hau, hex, -⟩ := fetchSection_spec cfg env P chapterDir
      title a { s with trace := s.trace ++
        [Event.reportArticle s.currentProduct.Total (i + 1) a.ArticleTitle] }
      (N.testBit 0) (N.testBit 1) (N.testBit 2) hb0 hb1 hb2
    obtain ⟨new2, o2, hrun2, hpre, hfull, hrfail, hdfail, hretk⟩ := fetchSection_calls cfg env P
      chapterDir title a { s with trace := s.trace ++
        [Event.reportArticle s.currentProduct.Total (i + 1) a.ArticleTitle] }
      (N.testBit 0) (N.testBit 1) (N.testBit 2) hb0 hb1 hb2
    obtain ⟨ho2, hst⟩ := Prod.mk.inj (hrun.symm.trans hrun2)
    have hnew2 : new1 = new2 := List.append_cancel_left (congrArg St.trace hst)
    subst ho2
    subst hnew2
    have hout2 : out = M.bind (fetchSection cfg env P chapterDir title a) (fun _ => M.pure (i + 1))
        { s with trace := s.trace ++
          [Event.reportArticle s.currentProduct.Total (i + 1) a.ArticleTitle] } := by
      rw [hout]; exact if_neg hskip
    have hnew : new = Event.reportArticle s.currentProduct.Total (i + 1) a.ArticleTitle :: new1 := by
      simp only [new, hout2, eventsAfter, M.bind, hrun]
      rcases ho with rfl | rfl <;> simp [M.pure]
    have htr : out.2.trace = s.trace ++ new := by
      rw [hnew]; simp only [hout2, M.bind, hrun]
      rcases ho with rfl | rfl <;> simp [M.pure]
    have hret : out.1 = Outcome.ret (i + 1) → o = Outcome.ret () := by
      simp only [hout2, M.bind, hrun]
      rcases ho with rfl | rfl <;> simp [M.pure]
    have hexit : o = Outcome.exited → out.1 = Outcome.exited := by
      intro h
      simp only [hout2, M.bind, hrun, h]
    have hk : callKinds new = callKinds new1 := by
      rw [hnew]; simp [callKinds, Event.kind]
    refine ⟨htr, ?_, ?_, ?_, ?_, ?_, fun h => absurd h hPR, by decide, ?_, ?_, ?_, ?_, ?_⟩
    · rw [hnew]; simpa [Event.isRender] using hr
    · rw [hnew]; simpa [Event.isDetail] using hd
    · rw [hnew]; simpa [Event.isTextFetch] using htx
    · rw [hnew]; simpa [Event.isAudioFetch] using hau
    · intro h
      obtain ⟨e1, e2, e3⟩ := hex (hret h)
      rw [hnew]
      refine ⟨?_, ?_, ?_⟩
      · simpa [Event.isDetail] using e1
      · simpa [Event.isTextFetch] using e2
      · simpa [Event.isAudioFetch] using e3
    · rw [hk]; exact hpre
    · intro hrok hdok
      have hfull2 : callKinds new = neededCalls N := by rw [hk]; exact hfull hrok hdok
      refine ⟨hfull2, ?_, ?_, ?_, ?_⟩
      · rw [countP_isRender, hfull2]; exact hcount.1
      · rw [countP_isDetail, hfull2]; exact hcount.2.1
      · rw [countP_isTextFetch, hfull2]; exact hcount.2.2.1
      · rw [countP_isAudioFetch, hfull2]; exact hcount.2.2.2
    · intro e hn he
      obtain ⟨h1, h2⟩ := hrfail e hn he
      exact ⟨hk.trans h1, hexit h2⟩
    · intro e hrok hn he
      obtain ⟨h1, h2⟩ := hdfail e hrok hn he
      exact ⟨hk.trans h1, hexit h2⟩
    · intro h
      rw [hk]; exact hretk (hret h)

/-- Witness for C1: scenario B, requested mask 7 with the pdf already present, invokes the
detail, text and audio fetch and no rendering; requested mask 2 with nothing present and a
failing text fetch invokes the detail fetch and the text fetch. -/
theorem downloadAll_invokes_needed_kinds_witness :
    (1 ≤ 7 ∧ 7 ≤ 7) ∧
    callKinds (eventsAfter 0
      (textArticleBody { columnOutputType := 7 } quietEnv [("1.c", ["t.pdf"])] "1.c" "d/1.c" 0
        { ArticleID := 5, ArticleTitle := "t", IndexNo := 1 } {}).2.trace)
      = [Kind.detail, Kind.text, Kind.audio] ∧
    (1 ≤ 2 ∧ 2 ≤ 7) ∧
    callKinds (eventsAfter 0
      (textArticleBody { columnOutputType := 2 } textFailEnv [] "1.c" "d/1.c" 0
        { ArticleID := 5, ArticleTitle := "t", IndexNo := 1 } {}).2.trace)
      = [Kind.detail, Kind.text] :=
  ⟨by decide,
    ((downloadAll_invokes_needed_kinds { columnOutputType := 7 } quietEnv [("1.c", ["t.pdf"])]
      "1.c" "d/1.c" 0 { ArticleID := 5, ArticleTitle := "t", IndexNo := 1 } {}
      (by decide) (by decide)).2.2.2.2.2.2.2.2.2.2.2.1
        (fun _ => rfl) (fun _ => ⟨{}, rfl⟩)).1.trans (by decide),
    by decide,
    ((downloadAll_invokes_needed_kinds { columnOutputType := 2 } textFailEnv []
      "1.c" "d/1.c" 0 { ArticleID := 5, ArticleTitle := "t", IndexNo := 1 } {}
      (by decide) (by decide)).2.2.2.2.2.2.2.2.2.2.2.1
        (fun _ => rfl) (fun _ => ⟨{}, rfl⟩)).1.trans (by decide)⟩

/-- C2 (code defect): the failing input.  Requested mask 6, nothing present, the text fetch
fails and the audio fetch succeeds: in `handleDownloadAll` and in `downloadArticle` alike the
audio fetch is still dispatched after the failed text fetch, its nil result overwrites the
error, no exit happens and the run goes on (random delay, next article). -/
theorem text_error_overwritten :
    textArticleBody { columnOutputType := 6 } textFailEnv [] "1.c" "d/1.c" 0 sampleArticle {} =
      (Outcome.ret 1, { trace := [Event.reportArticle 0 1 "t", Event.getArticleInfo 5,
        Event.markdownDownload "" "t" "d/1.c" 5 1, Event.downloadAudio "" "d/1.c" "t",
        Event.sleepRandom] }) ∧
    downloadArticleText { columnOutputType := 6 } textFailEnv { AID := 5, Title := "t" } "d/1.c" {} =
      (Outcome.ret (), { trace := [Event.spinner true, Event.getArticleInfo 5,
        Event.markdownDownload "" "t" "d/1.c" 5 1, Event.downloadAudio "" "d/1.c" "t",
        Event.spinner false] }) := by
  decide

/-- C3: grouping by `loadArticles` is run-length grouping.  Starting from a product without
articles and lessons, for the listing `articles` and the detail records `d`, the call returns
and the lessons are `runLessons 0 runs` for `runs`, the maximal runs of consecutive records
with the same chapter id (they concatenate to the listing, none is empty, a run has one
chapter id, neighbouring runs have different ones): there are as many lessons as runs, lesson
number `j` (from 0) is made from run `j` with `IndexNo = j + 1`, chapter id and title of the
first record of the run and the articles of the run in order, and article number `k` (from 0)
of a run has `IndexNo = k + 1`. -/
theorem loadArticles_groups_runs (env : Env) (s : St) (articles : List Article)
    (d : Int → ArticleDetail)
    (hA : s.currentProduct.Articles = []) (hL : s.currentProduct.Lessons = [])
    (hlist : env.postV1ColumnArticles (s.trace ++ [Event.spinner true])
      (toString s.currentProduct.ID) = Except.ok articles)
    (hdet : ∀ h aid, env.postV3ArticleInfo h aid = Except.ok (d aid)) :
    let details := articles.map (fun a => d a.AID)
    let runs := chapterRuns details
    let out := loadArticles env s
    out.1 = Outcome.ret () ∧
    out.2.currentProduct.Lessons = runLessons 0 runs ∧
    (runs.flatten = details ∧ [] ∉ runs ∧
      (∀ r ∈ runs, ∀ x ∈ r, ∀ y ∈ r, x.ChapterID = y.ChapterID) ∧
      List.Chain' (fun r1 r2 : List ArticleDetail =>
        ∀ x ∈ r1, ∀ y ∈ r2, x.ChapterID ≠ y.ChapterID) runs) ∧
    out.2.currentProduct.Lessons.length = runs.length ∧
    (∀ j, out.2.currentProduct.Lessons[j]? = (runs[j]?).bind (fun run : List ArticleDetail =>
      run.head?.map (fun first =>
        ({ ChapterName := first.ChapterTitle, ChapterID := first.ChapterID, IndexNo := j + 1,
           Articles := runArticles 0 run } : Lesson)))) ∧
    (∀ (run : List ArticleDetail) (k : Nat), (runArticles 0 run)[k]? = (run[k]?).map (fun x =>
      ({ ArticleID := x.ID, ArticleTitle := x.Title, IndexNo := k + 1 } : RArticle))) := by
  intro details runs out
  have hout : out = (Outcome.ret (), { s with
      trace := s.trace ++
        [Event.spinner true, Event.postV1ColumnArticles (toString s.currentProduct.ID)] ++
        articles.map (fun a => Event.postV3ArticleInfo a.AID) ++ [Event.spinner false],
      currentProduct := { s.currentProduct with
        Articles := articles, Total := articles.length, Lessons := runLessons 0 runs } }) := by
    simp only [out, loadArticles_fresh_run env s hA, hlist, M.bind,
      loadArticlesLoop_spec env d hdet, emit_run, hL, foldl_groupStep_nil]
  have hnil : [] ∉ runs := chapterRuns_nil_not_mem details
  have hLs : out.2.currentProduct.Lessons = runLessons 0 runs := by rw [hout]
  refine ⟨by rw [hout], hLs, ⟨chapterRuns_flatten details, hnil, chapterRuns_const details,
    chapterRuns_chain details⟩, ?_, ?_, ?_⟩
  · rw [hLs, runLessons_length runs hnil]
  · intro j
    rw [hLs, runLessons_get runs hnil]
    simp
  · intro run k
    rw [runArticles_get]
    simp

/-- Witness for C3: chapter ids `[10, 10, 20, 20, 20, 30]` give lesson indices `[1, 2, 3]`,
article counts `[2, 3, 1]`, and the third article of lesson 2 has index 3. -/
theorem loadArticles_groups_runs_witness :
    ((({} : St).currentProduct.Articles = [] ∧ ({} : St).currentProduct.Lessons = []) ∧
      sixArticles.map (fun a => (sixDetail a.AID).ChapterID) = [10, 10, 20, 20, 20, 30]) ∧
    (loadArticles sixEnv {}).2.currentProduct.Lessons.map (fun l => l.IndexNo) = [1, 2, 3] ∧
    (loadArticles sixEnv {}).2.currentProduct.Lessons.map (fun l => l.Articles.length) = [2, 3, 1] ∧
    ((loadArticles sixEnv {}).2.currentProduct.Lessons[1]?.bind (fun l => l.Articles[2]?)).map
      (fun a => a.IndexNo) = some 3 := by
  have h := (loadArticles_groups_runs sixEnv {} sixArticles sixDetail rfl rfl rfl
    (fun _ _ => rfl)).2.1
  rw [h]
  decide

/-- C4: download-all walks lessons in index order and, inside a lesson, articles in index
order.  For a text product grouped by `loadArticles` from a listing of `n` articles, the
article lines reported by `handleDownloadAll` are a prefix of the expected lines (the whole of
them whenever the run is not ended by a fatal error), and expected line number `k` (from 0) is
article `k` of the listing with counter `k + 1` out of `Total = n`; the articles of the lessons,
in the order of the walk, are the articles of the listing, each once, and their pairs
(Lesson IndexNo, Article IndexNo) are strictly increasing lexicographically. -/
theorem downloadAll_processes_in_listing_order (cfg : Config) (env : Env) (s : St)
    (articles : List Article) (d : Int → ArticleDetail)
    (hA : s.currentProduct.Articles = []) (hL : s.currentProduct.Lessons = [])
    (htext : isText s.currentProduct = true)
    (hlist : env.postV1ColumnArticles (s.trace ++ [Event.spinner true])
      (toString s.currentProduct.ID) = Except.ok articles)
    (hdet : ∀ h aid, env.postV3ArticleInfo h aid = Except.ok (d aid)) :
    let details := articles.map (fun a => d a.AID)
    let n := articles.length
    let out := handleDownloadAllBody cfg env s
    let reports := (eventsAfter s.trace.length out.2.trace).filterMap Event.articleReport
    reports <+: detailReports n 0 details ∧
    ((∃ b, out.1 = Outcome.ret b) → reports = detailReports n 0 details) ∧
    (detailReports n 0 details).length = n ∧
    (∀ k, (detailReports n 0 details)[k]? = (details[k]?).map (fun x => (n, k + 1, x.Title))) ∧
    out.2.currentProduct.Lessons.flatMap (fun l => l.Articles.map
      (fun a => (a.ArticleID, a.ArticleTitle))) = details.map (fun x => (x.ID, x.Title)) ∧
    (indexPairs out.2.currentProduct.Lessons).length = n ∧
    List.Pairwise lexLt (indexPairs out.2.currentProduct.Lessons) := by
  intro details n out reports
  have hload := loadArticles_result env s articles d hA hL hlist hdet
  obtain ⟨new, o, hrun, hpre, heq, -⟩ := downloadAllLoaded_spec cfg env { s with
      trace := s.trace ++
        ([Event.spinner true, Event.postV1ColumnArticles (toString s.currentProduct.ID)] ++
        articles.map (fun a => Event.postV3ArticleInfo a.AID) ++ [Event.spinner false]),
      currentProduct := { s.currentProduct with
        Articles := articles, Total := articles.length,
        Lessons := runLessons 0 (chapterRuns (articles.map (fun a => d a.AID))) } }
    (by simpa [isText] using htext)
  have hout : out = (o, { s with
      trace := s.trace ++
        (([Event.spinner true, Event.postV1ColumnArticles (toString s.currentProduct.ID)] ++
        articles.map (fun a => Event.postV3ArticleInfo a.AID) ++ [Event.spinner false]) ++ new),
      currentProduct := { s.currentProduct with
        Articles := articles, Total := articles.length,
        Lessons := runLessons 0 (chapterRuns (articles.map (fun a => d a.AID))) } }) := by
    simp only [out, handleDownloadAllBody, bind_eq, M.bind, hload, hrun]
    simp
  have hrep : reports = new.filterMap Event.articleReport := by
    simp only [reports, hout, eventsAfter, List.drop_left', List.filterMap_append]
    simp [Event.articleReport, List.filterMap_map]
  have hexp : articleReportsFrom articles.length 0
      ((runLessons 0 (chapterRuns details)).flatMap (fun l => l.Articles))
        = detailReports n 0 details := by
    rw [articleReportsFrom_runLessons, chapterRuns_flatten]
  have hLs : out.2.currentProduct.Lessons = runLessons 0 (chapterRuns details) := by rw [hout]
  refine ⟨?_, ?_, ?_, ?_, ?_, ?_, ?_⟩
  · rw [hrep, ← hexp]; exact hpre
  · rintro ⟨b, hb⟩
    rw [hrep, ← hexp]
    exact heq ⟨b, by simpa [hout] using hb⟩
  · simp [detailReports_length, details, n]
  · intro k
    rw [detailReports_get]
    simp
  · rw [hLs, runLessons_articles, chapterRuns_flatten]
  · rw [hLs]
    have h1 : (indexPairs (runLessons 0 (chapterRuns details))).length
        = ((runLessons 0 (chapterRuns details)).flatMap (fun l => l.Articles.map
            (fun a => (a.ArticleID, a.ArticleTitle)))).length := by
      rw [indexPairs, flatMap_map_length, flatMap_map_length]
    rw [h1, runLessons_articles, chapterRuns_flatten]
    simp [details, n]
  · rw [hLs]
    exact (indexPairs_runLessons (chapterRuns details) 0).2

/-- Witness for C4: the listing of six articles. -/
theorem downloadAll_processes_in_listing_order_witness :
    (textState.currentProduct.Articles = [] ∧ textState.currentProduct.Lessons = [] ∧
      isText textState.currentProduct = true) ∧
    (eventsAfter textState.trace.length
        (handleDownloadAllBody { columnOutputType := 2 } sixEnv textState).2.trace).filterMap
          Event.articleReport
      <+: detailReports sixArticles.length 0 (sixArticles.map (fun a => sixDetail a.AID)) :=
  ⟨by decide,
    (downloadAll_processes_in_listing_order { columnOutputType := 2 } sixEnv textState sixArticles
      sixDetail rfl rfl (by decide) rfl (fun _ _ => rfl)).1⟩

/-- C5 (counterexample): requested mask 1 and the pdf of the article already on disk (the
scanner would report present mask 1, so `R &^ P = 0`), yet the single-article path renders
the page again. -/
theorem single_article_refetches_present :
    findDownloadedArticleFileNames pdfOnDiskEnv.join (pdfOnDiskEnv.dirState []) "r"
      = ([("1.c", ["t.pdf"])], none) ∧
    presentMask pdfOnDiskEnv [("1.c", ["t.pdf"])] "1.c" "t" = 1 ∧
    andNot 1 1 = 0 ∧
    downloadArticle { columnOutputType := 1 } pdfOnDiskEnv { AID := 5, Title := "t" } "r" loadedState =
      (Outcome.ret (), { loadedState with trace := [Event.mkdirAll "r/1.c", Event.spinner true,
        Event.chromedpRun, Event.printArticlePageToPDF 5 "r/1.c" "t" true, Event.spinner false,
        Event.chromedpCancel] }) := by
  decide


/-- C5 (amended): the single-article path does not consult the presence index.  For a text
product and a requested mask `R` in 1..7, `downloadArticle` never reads the destination tree,
and the collaborator calls it makes are always a prefix of `neededCalls R`; they are exactly
`neededCalls R` (rendering, the shared detail fetch, the text fetch and the audio fetch once
each on bit 0, bit 1 or 2, bit 1 and bit 2 of `R` itself) whenever the lesson is found and the
directory creation, the browser start and the rendering (on bit 0) and the detail fetch (on
bit 1 or 2) do not answer with an error, whatever the text and the audio fetch answer and
whatever is present on disk. -/
theorem single_article_fetches_requested_kinds (cfg : Config) (env : Env) (article : Article)
    (projectDir : String) (s : St)
    (hR1 : 1 ≤ cfg.columnOutputType) (hR7 : cfg.columnOutputType ≤ 7)
    (htext : isText s.currentProduct = true) :
    let R := cfg.columnOutputType
    let out := downloadArticle cfg env article projectDir s
    let new := eventsAfter s.trace.length out.2.trace
    out.2.trace = s.trace ++ new ∧
    (∀ e ∈ new, e.isReadDir = false) ∧
    new.countP Event.isRender ≤ (R.testBit 0).toNat ∧
    new.countP Event.isDetail ≤ (R.testBit 1 || R.testBit 2).toNat ∧
    new.countP Event.isTextFetch ≤ (R.testBit 1).toNat ∧
    new.countP Event.isAudioFetch ≤ (R.testBit 2).toNat ∧
    (out.1 = Outcome.ret () →
      new.countP Event.isRender = (R.testBit 0).toNat ∧
      new.countP Event.isDetail = (R.testBit 1 || R.testBit 2).toNat ∧
      new.countP Event.isTextFetch = (R.testBit 1).toNat ∧
      new.countP Event.isAudioFetch = (R.testBit 2).toNat) ∧
    callKinds new <+: neededCalls R ∧
    (∀ l, getLesson s.currentProduct.Lessons article.AID = Except.ok l →
      let chapterDir := chapterDirOf env projectDir l
      let started := s.trace ++ [Event.mkdirAll chapterDir, Event.spinner true]
      env.mkdirAll s.trace chapterDir = none →
      (R.testBit 0 = true → env.chromedpRun started = none ∧
        env.printArticlePageToPDF (started ++ [Event.chromedpRun]) article.AID chapterDir
          article.Title = none) →
      ((R.testBit 1 || R.testBit 2) = true → ∃ info, env.getArticleInfo (started ++
          if R.testBit 0 then [Event.chromedpRun, Event.printArticlePageToPDF article.AID
            chapterDir article.Title cfg.downloadComments] else []) article.AID
          = Except.ok info) →
      callKinds new = neededCalls R ∧
      new.countP Event.isRender = (R.testBit 0).toNat ∧
      new.countP Event.isDetail = (R.testBit 1 || R.testBit 2).toNat ∧
      new.countP Event.isTextFetch = (R.testBit 1).toNat ∧
      new.countP Event.isAudioFetch = (R.testBit 2).toNat) ∧
    (out.1 = Outcome.ret () → callKinds new = neededCalls R) := by
  intro R out new
  obtain ⟨hb0, hb1, hb2⟩ := mask_bits cfg.columnOutputType (by omega)
  have hout : out = _ := downloadArticle_run cfg env article projectDir s htext
  have hcount := callsOf_count (R.testBit 0) (R.testBit 1) (R.testBit 2)
  cases hg : getLesson s.currentProduct.Lessons article.AID with
  | error e =>
    simp only [hg] at hout
    simp [new, hout, eventsAfter, Event.isReadDir, Event.isRender, Event.isDetail,
      Event.isTextFetch, Event.isAudioFetch, callKinds, Event.kind]
  | ok l =>
    simp only [hg] at hout
    cases hm : env.mkdirAll s.trace
      (env.join projectDir (env.filenamify (toString l.IndexNo ++ "." ++ l.ChapterName))) with
    | some e =>
      simp only [hm] at hout
      simp [new, hout, eventsAfter, Event.isReadDir, Event.isRender, Event.isDetail,
        Event.isTextFetch, Event.isAudioFetch, callKinds, Event.kind, chapterDirOf, hm]
    | none =>
      simp only [hm] at hout
      obtain ⟨new1, o, hrun, -, hr, hd, htx, hau, hex, hall⟩ := downloadArticleText_spec cfg env
        article (env.join projectDir (env.filenamify (toString l.IndexNo ++ "." ++ l.ChapterName)))
        { s with trace := s.trace ++ [Event.mkdirAll (env.join projectDir
              (env.filenamify (toString l.IndexNo ++ "." ++ l.ChapterName)))] }
        (R.testBit 0) (R.testBit 1) (R.testBit 2) hb0 hb1 hb2
      obtain ⟨new2, o2, hrun2, hpre, hfull, hretk⟩ := downloadArticleText_calls cfg env
        article (env.join projectDir (env.filenamify (toString l.IndexNo ++ "." ++ l.ChapterName)))
        { s with trace := s.trace ++ [Event.mkdirAll (env.join projectDir
              (env.filenamify (toString l.IndexNo ++ "." ++ l.ChapterName)))] }
        (R.testBit 0) (R.testBit 1) (R.testBit 2) hb0 hb1 hb2
      obtain ⟨ho2, hst⟩ := Prod.mk.inj (hrun.symm.trans hrun2)
      have hnew2 : new1 = new2 := List.append_cancel_left (congrArg St.trace hst)
      subst ho2
      subst hnew2
      rw [hrun] at hout
      have hnew : new = Event.mkdirAll (env.join projectDir
          (env.filenamify (toString l.IndexNo ++ "." ++ l.ChapterName))) :: new1 := by
        simp [new, hout, eventsAfter]
      have hk : callKinds new = callKinds new1 := by
        rw [hnew]; simp [callKinds, Event.kind]
      have hret : out.1 = Outcome.ret () → o = Outcome.ret () := by
        intro h; simpa [hout] using h
      refine ⟨by rw [hnew]; simp [hout], ?_, ?_, ?_, ?_, ?_, ?_, ?_, ?_, ?_⟩
      · intro e he
        rw [hnew] at he
        rcases List.mem_cons.1 he with rfl | he
        · rfl
        · exact (hall e he).2.1
      · rw [hnew]; simpa [Event.isRender] using hr
      · rw [hnew]; simpa [Event.isDetail] using hd
      · rw [hnew]; simpa [Event.isTextFetch] using htx
      · rw [hnew]; simpa [Event.isAudioFetch] using hau
      · intro h
        obtain ⟨e0, e1, e2, e3⟩ := hex (hret h)
        rw [hnew]
        refine ⟨?_, ?_, ?_, ?_⟩
        · simpa [Event.isRender] using e0
        · simpa [Event.isDetail] using e1
        · simpa [Event.isTextFetch] using e2
        · simpa [Event.isAudioFetch] using e3
      · rw [hk]; exact hpre
      · intro l2 hl2 chapterDir started hmk hrok hdok
        have hll : l2 = l := by injection hl2 with h; exact h.symm
        subst hll
        have hfull2 : callKinds new = neededCalls R := by
          rw [hk]
          apply hfull
          · intro hn
            have := hrok hn
            simpa [started, chapterDir, chapterDirOf] using this
          · intro hn
            have := hdok hn
            simpa [started, chapterDir, chapterDirOf] using this
        refine ⟨hfull2, ?_, ?_, ?_, ?_⟩
        · rw [countP_isRender, hfull2]; exact hcount.1
        · rw [countP_isDetail, hfull2]; exact hcount.2.1
        · rw [countP_isTextFetch, hfull2]; exact hcount.2.2.1
        · rw [countP_isAudioFetch, hfull2]; exact hcount.2.2.2
      · intro h
        rw [hk]; exact hretk (hret h)

/-- Witness for C5 (amended): with the pdf on disk, requested mask 1 renders the page and
requested mask 7 invokes all four collaborators. -/
theorem single_article_fetches_requested_kinds_witness :
    (1 ≤ 1 ∧ 1 ≤ 7 ∧ isText loadedState.currentProduct = true) ∧
    callKinds (eventsAfter 0
      (downloadArticle { columnOutputType := 1 } pdfOnDiskEnv { AID := 5, Title := "t" } "r"
        loadedState).2.trace) = [Kind.render] ∧
    (1 ≤ 7 ∧ 7 ≤ 7 ∧ isText loadedState.currentProduct = true) ∧
    callKinds (eventsAfter 0
      (downloadArticle { columnOutputType := 7 } pdfOnDiskEnv { AID := 5, Title := "t" } "r"
        loadedState).2.trace) = [Kind.render, Kind.detail, Kind.text, Kind.audio] :=
  ⟨by decide,
    ((single_article_fetches_requested_kinds { columnOutputType := 1 } pdfOnDiskEnv
      { AID := 5, Title := "t" } "r" loadedState (by decide) (by decide)
      (by decide)).2.2.2.2.2.2.2.2.1
        { ChapterName := "c", ChapterID := 1, IndexNo := 1, Articles := [sampleArticle] }
        rfl rfl (fun _ => ⟨rfl, rfl⟩) (fun _ => ⟨{}, rfl⟩)).1.trans (by decide),
    by decide,
    ((single_article_fetches_requested_kinds { columnOutputType := 7 } pdfOnDiskEnv
      { AID := 5, Title := "t" } "r" loadedState (by decide) (by decide)
      (by decide)).2.2.2.2.2.2.2.2.1
        { ChapterName := "c", ChapterID := 1, IndexNo := 1, Articles := [sampleArticle] }
        rfl rfl (fun _ => ⟨rfl, rfl⟩) (fun _ => ⟨{}, rfl⟩)).1.trans (by decide)⟩

/-- C6 (code defect): the failing input.  Requested mask 1 with the pdf and the md file
present gives present mask 3 and needed mask `1 &^ 3 = 0`, yet the test of line 361 is false:
the article is not skipped, the loop goes through the fetch section (invoking nothing) and
reaches the random delay. -/
theorem skip_test_misses_superset :
    presentMask quietEnv [("1.c", ["t.pdf", "t.md"])] "1.c" "t" = 3 ∧
    andNot 1 3 = 0 ∧ skipTest 1 3 = false ∧
    textArticleBody { columnOutputType := 1 } quietEnv [("1.c", ["t.pdf", "t.md"])] "1.c" "d/1.c" 0
        sampleArticle {} =
      (Outcome.ret 1, { trace := [Event.reportArticle 0 1 "t", Event.sleepRandom] }) := by
  decide

/-- C7 (counterexample): a missing root makes the scan fail with the error of `os.ReadDir`,
and so does a first-level subdirectory that cannot be listed. -/
theorem scan_fails_on_missing_root_and_subdir :
    findDownloadedArticleFileNames quietEnv.join (fun _ => DirState.missing) "r"
      = ([], some "no such file or directory") ∧
    findDownloadedArticleFileNames quietEnv.join brokenSubdirFs "r"
      = ([("a", [])], some "permission denied") := by
  decide

/-- C7 (amended): `findDownloadedArticleFileNames` returns an error if and only if the root
cannot be listed (it does not exist, or reading it fails) or some first-level entry that is a
directory cannot be listed; a root that lists as empty gives the empty index and no error. -/
theorem scan_error_iff (join : String → String → String) (fs : String → DirState)
    (projectDir : String) :
    ((findDownloadedArticleFileNames join fs projectDir).2 ≠ none ↔
      (∀ files, fs projectDir ≠ DirState.entries files) ∨
      ∃ files, fs projectDir = DirState.entries files ∧
        ∃ f ∈ files, f.IsDir = true ∧ ∀ sub, fs (join projectDir f.Name) ≠ DirState.entries sub) ∧
    (fs projectDir = DirState.entries [] →
      findDownloadedArticleFileNames join fs projectDir = ([], none)) := by
  constructor
  · simp only [findDownloadedArticleFileNames]
    cases hfs : fs projectDir with
    | missing => simp [osReadDir]
    | unreadable e => simp [osReadDir]
    | entries files =>
      simp only [osReadDir]
      by_cases hlen : (files.length == 0) = true
      · have : files = [] := by simpa using hlen
        subst this
        simp
      · simp only [hlen, Bool.false_eq_true, ↓reduceIte, scanLoop_error_iff]
        simp
  · intro h
    simp [findDownloadedArticleFileNames, h, osReadDir]

/-- C8 (counterexample): a product whose listing came back empty is not cached.  The first
call returns with no articles; the next call on the same product asks the remote service for
the listing again (and, the listing now holding one article, for its detail record), and
`Total` and `Lessons` change. -/
theorem loadArticles_refetches_empty_listing :
    (loadArticles emptyThenOneEnv {}).1 = Outcome.ret () ∧
    (loadArticles emptyThenOneEnv {}).2.currentProduct.Articles = [] ∧
    (loadArticles emptyThenOneEnv {}).2.trace
      = [Event.spinner true, Event.postV1ColumnArticles "0", Event.spinner false] ∧
    (loadArticles emptyThenOneEnv (loadArticles emptyThenOneEnv {}).2).2.trace
      = [Event.spinner true, Event.postV1ColumnArticles "0", Event.spinner false,
         Event.spinner true, Event.postV1ColumnArticles "0", Event.postV3ArticleInfo 1,
         Event.spinner false] ∧
    (loadArticles emptyThenOneEnv (loadArticles emptyThenOneEnv {}).2).2.currentProduct.Total = 1 ∧
    (loadArticles emptyThenOneEnv (loadArticles emptyThenOneEnv {}).2).2.currentProduct.Lessons.length
      = 1 := by
  decide

/-- C8 (amended): grouping happens at most once per product whose article list is not empty.
If the product already holds articles, or the listing that the first call receives is not
empty, then a further call of `loadArticles`, in any environment, returns at once with the
state unchanged: no event (so no remote listing or detail fetch) is added to the trace, and
`Articles`, `Total` and `Lessons` with all their indices stay as they are. -/
theorem loadArticles_once_when_nonempty (env env2 : Env) (s : St)
    (hne : s.currentProduct.Articles ≠ [] ∨ ∃ a as,
      env.postV1ColumnArticles (s.trace ++ [Event.spinner true]) (toString s.currentProduct.ID)
        = Except.ok (a :: as)) :
    loadArticles env2 (loadArticles env s).2 = (Outcome.ret (), (loadArticles env s).2) ∧
    (loadArticles env2 (loadArticles env s).2).2.trace = (loadArticles env s).2.trace ∧
    (loadArticles env2 (loadArticles env s).2).2.currentProduct
      = (loadArticles env s).2.currentProduct := by
  have key : (loadArticles env s).2.currentProduct.Articles ≠ [] := by
    by_cases hA : s.currentProduct.Articles = []
    · rcases hne with h | ⟨a, as, hl⟩
      · exact absurd hA h
      · rw [loadArticles_fresh_run env s hA, hl]
        obtain ⟨new, o, ls, hrun, ho⟩ := loadArticlesLoop_keeps env (a :: as)
          { s with
            trace := s.trace ++
              [Event.spinner true, Event.postV1ColumnArticles (toString s.currentProduct.ID)],
            currentProduct := { s.currentProduct with
              Articles := a :: as, Total := (a :: as).length } }
        simp only [M.bind, hrun]
        rcases ho with rfl | rfl <;> simp [emit_run]
    · rw [loadArticles_cached_run env s hA]; exact hA
  have h2 := loadArticles_cached_run env2 _ key
  exact ⟨h2, by rw [h2], by rw [h2]⟩

/-- Witness for C8 (amended): the listing of six articles. -/
theorem loadArticles_once_when_nonempty_witness :
    (sixEnv.postV1ColumnArticles (({} : St).trace ++ [Event.spinner true])
        (toString ({} : St).currentProduct.ID) = Except.ok sixArticles) ∧
    loadArticles emptyThenOneEnv (loadArticles sixEnv {}).2
      = (Outcome.ret (), (loadArticles sixEnv {}).2) :=
  ⟨rfl,
    (loadArticles_once_when_nonempty sixEnv emptyThenOneEnv {}
      (Or.inr ⟨⟨1, "a1"⟩, [⟨2, "a2"⟩, ⟨3, "a3"⟩, ⟨4, "a4"⟩, ⟨5, "a5"⟩, ⟨6, "a6"⟩], rfl⟩)).1⟩

/-- C9 (counterexample): with a sanitizer that rewrites `a/b` to `a_b`, the single-article
path hands the raw title `a/b` to the three collaborators, download-all hands `a_b`. -/
theorem single_article_hands_raw_title :
    slashEnv.filenamify "a/b" = "a_b" ∧
    (downloadArticleText { columnOutputType := 7 } slashEnv { AID := 5, Title := "a/b" } "r/1.c" {}).2.trace
      = [Event.spinner true, Event.chromedpRun, Event.printArticlePageToPDF 5 "r/1.c" "a/b" true,
         Event.getArticleInfo 5, Event.markdownDownload "" "a/b" "r/1.c" 5 1,
         Event.downloadAudio "" "r/1.c" "a/b", Event.spinner false, Event.chromedpCancel] ∧
    (textArticleBody { columnOutputType := 7 } slashEnv [] "1.c" "r/1.c" 0
        { ArticleID := 5, ArticleTitle := "a/b", IndexNo := 1 } {}).2.trace
      = [Event.reportArticle 0 1 "a/b", Event.printArticlePageToPDF 5 "r/1.c" "a_b" true,
         Event.getArticleInfo 5, Event.markdownDownload "" "a_b" "r/1.c" 5 1,
         Event.downloadAudio "" "r/1.c" "a_b", Event.sleepRandom] := by
  decide


/-- C9 (amended): download-all names an article's files by its sanitized title, the
single-article path hands the listing title as it is.  For a text product, every hand-over of
download-all to the rendering, text or audio collaborator carries the chapter directory of a
lesson and the sanitized title of one of its articles; every hand-over of `downloadArticle`
carries the same chapter directory of the article's lesson and the unsanitized `article.Title`;
the presence lookup of download-all uses the sanitized title followed by the extension. -/
theorem paths_hand_over_titles (cfg : Config) (env : Env) (s : St) (article : Article)
    (downloaded : Presence) (chapterName : String) (a : RArticle)
    (htext : isText s.currentProduct = true) :
    let projectDir := projectDirOf cfg env s.currentProduct.Title
    (∀ e ∈ eventsAfter s.trace.length (downloadAllLoaded cfg env s).2.trace,
      e.handed = none ∨ ∃ l ∈ s.currentProduct.Lessons, ∃ a ∈ l.Articles,
        e.handed = some (chapterDirOf env projectDir l, env.filenamify a.ArticleTitle)) ∧
    (∀ e ∈ eventsAfter s.trace.length (downloadArticle cfg env article projectDir s).2.trace,
      e.handed = none ∨ ∃ l, getLesson s.currentProduct.Lessons article.AID = Except.ok l ∧
        e.handed = some (chapterDirOf env projectDir l, article.Title)) ∧
    ((presentMask env downloaded chapterName (env.filenamify a.ArticleTitle)).testBit 0
        = hasFile downloaded chapterName (env.filenamify a.ArticleTitle ++ env.pdfExt) ∧
      (presentMask env downloaded chapterName (env.filenamify a.ArticleTitle)).testBit 1
        = hasFile downloaded chapterName (env.filenamify a.ArticleTitle ++ env.mdExt) ∧
      (presentMask env downloaded chapterName (env.filenamify a.ArticleTitle)).testBit 2
        = hasFile downloaded chapterName (env.filenamify a.ArticleTitle ++ env.mp3Ext)) := by
  intro projectDir
  refine ⟨?_, ?_, (presentMask_spec env downloaded chapterName _).2⟩
  · obtain ⟨new, o, hrun, -, -, hall⟩ := downloadAllLoaded_spec cfg env s htext
    intro e he
    have : e ∈ new := by simpa [hrun, eventsAfter] using he
    exact hall e this
  · rw [downloadArticle_run cfg env article projectDir s htext]
    cases hg : getLesson s.currentProduct.Lessons article.AID with
    | error err =>
      intro e he
      have : e = Event.exit err := by simpa [eventsAfter] using he
      subst this
      exact Or.inl rfl
    | ok l =>
      simp only []
      cases hm : env.mkdirAll s.trace
        (env.join projectDir (env.filenamify (toString l.IndexNo ++ "." ++ l.ChapterName))) with
      | some err =>
        intro e he
        have : e = Event.mkdirAll (env.join projectDir
            (env.filenamify (toString l.IndexNo ++ "." ++ l.ChapterName))) ∨ e = Event.exit err := by
          simpa [eventsAfter] using he
        rcases this with rfl | rfl <;> exact Or.inl rfl
      | none =>
        simp only []
        obtain ⟨new1, o, hrun, -, -, -, -, -, -, hall⟩ := downloadArticleText_spec cfg env
          article (env.join projectDir (env.filenamify (toString l.IndexNo ++ "." ++ l.ChapterName)))
          { s with trace := s.trace ++ [Event.mkdirAll (env.join projectDir
                (env.filenamify (toString l.IndexNo ++ "." ++ l.ChapterName)))] }
          _ _ _ rfl rfl rfl
        rw [hrun]
        intro e he
        have : e = Event.mkdirAll (env.join projectDir
            (env.filenamify (toString l.IndexNo ++ "." ++ l.ChapterName))) ∨ e ∈ new1 := by
          simpa [eventsAfter] using he
        rcases this with rfl | he
        · exact Or.inl rfl
        · rcases (hall e he).2.2 with h | h
          · exact Or.inl h
          · exact Or.inr ⟨l, rfl, h⟩

/-- Witness for C9 (amended): the title `a/b` under a sanitizer that rewrites it. -/
theorem paths_hand_over_titles_witness :
    isText loadedState.currentProduct = true ∧
    ∀ e ∈ eventsAfter 0 (downloadArticle { columnOutputType := 1 } slashEnv
        { AID := 5, Title := "a/b" } (projectDirOf { columnOutputType := 1 } slashEnv "P")
        loadedState).2.trace,
      e.handed = none ∨ ∃ l, getLesson loadedState.currentProduct.Lessons 5 = Except.ok l ∧
        e.handed = some (chapterDirOf slashEnv (projectDirOf { columnOutputType := 1 } slashEnv "P") l,
          "a/b") :=
  ⟨by decide,
    (paths_hand_over_titles { columnOutputType := 1 } slashEnv loadedState { AID := 5, Title := "a/b" }
      [] "" sampleArticle (by decide)).2.1⟩


/-- C10: the transitions of the article menu, for a select prompt that answers with an index
of one of its items.  With index 0, `handleSelectArticle` is the call of `productOps` and
nothing else: `productOps` never returns, so the lookup `Articles[index-1]` after it is never
reached, and the first thing that happens is the prompt of the product menu on the unchanged
state.  With `1 <= i <= len(Articles)` the lookup `Articles[i-1]` is in bounds, exactly that
article is downloaded, and what follows the download is `selectArticle`, whose first action on
a loaded product is the prompt of the article menu. -/
theorem articleMenu_transitions (cfg : Config) (env : Env)
    (hsel : ∀ h m k i, env.selectRun h m k = Except.ok i → 0 ≤ i ∧ i < (k : Int))
    (n : Nat) (s : St) :
    (run cfg env (n + 1) (Fn.handleSelectArticle 0) s = run cfg env n Fn.productOps s) ∧
    (∀ u, (run cfg env (n + 1) (Fn.handleSelectArticle 0) s).1 ≠ Outcome.ret u) ∧
    (run cfg env (n + 2) (Fn.handleSelectArticle 0) s =
      match env.selectRun s.trace Menu.productOps 3 with
      | Except.error e => (Outcome.exited, { s with trace := s.trace ++
          [Event.select Menu.productOps 3, Event.exit e] })
      | Except.ok index =>
        run cfg env n (if index = 0 then Fn.selectProductType
            else if index = 1 then Fn.handleDownloadAll else Fn.selectArticle)
          { s with trace := s.trace ++ [Event.select Menu.productOps 3] }) ∧
    (∀ i : Int, 1 ≤ i → i ≤ (s.currentProduct.Articles.length : Int) →
      ∃ a, s.currentProduct.Articles[(i - 1).toNat]? = some a ∧
        goIndex s.currentProduct.Articles (i - 1) = some a ∧
        run cfg env (n + 1) (Fn.handleSelectArticle i) s =
          M.bind (mkDownloadProjectDir cfg env s.currentProduct.Title) (fun projectDir =>
            M.bind (downloadArticle cfg env a projectDir) (fun _ =>
              M.bind (emit (Event.printDone a.Title)) (fun _ =>
                M.bind (emit Event.sleepSecond) (fun _ => run cfg env n Fn.selectArticle)))) s) ∧
    (s.currentProduct.Articles ≠ [] →
      run cfg env (n + 1) Fn.selectArticle s =
        match env.selectRun s.trace Menu.selectArticle (1 + s.currentProduct.Articles.length) with
        | Except.error e => (Outcome.exited, { s with trace := s.trace ++
            [Event.select Menu.selectArticle (1 + s.currentProduct.Articles.length),
             Event.exit e] })
        | Except.ok index =>
          run cfg env n (Fn.handleSelectArticle index)
            { s with trace := s.trace ++
              [Event.select Menu.selectArticle (1 + s.currentProduct.Articles.length)] }) := by
  have hnr : ∀ m, NoRet (run cfg env m Fn.productOps) := fun m =>
    run_noRet cfg env hsel m Fn.productOps (by intro id h; cases h)
  have h0 : ∀ m, run cfg env (m + 1) (Fn.handleSelectArticle 0) s
      = run cfg env m Fn.productOps s := by
    intro m
    simp only [run, bind_eq, beq_self_eq_true, ↓reduceIte]
    exact M.bind_eq_of_noRet (hnr m) _ s
  refine ⟨h0 n, ?_, ?_, ?_, ?_⟩
  · intro u
    rw [h0 n]
    exact hnr n s u
  · rw [h0 (n + 1)]
    simp only [run, bind_eq, M.bind_call, M.bind_checked, M.bind_assoc]
    cases hr : env.selectRun s.trace Menu.productOps 3 with
    | error e => simp
    | ok index =>
      have hb := hsel _ _ _ _ hr
      have h3 : index = 0 ∨ index = 1 ∨ index = 2 := by omega
      rcases h3 with rfl | rfl | rfl <;> simp
  · intro i h1 h2
    obtain ⟨a, ha1, ha2⟩ := goIndex_in_bounds s.currentProduct.Articles i h1 h2
    refine ⟨a, ha1, ha2, ?_⟩
    have hi : (i == 0) = false := by
      have : i ≠ 0 := by omega
      simpa using this
    simp only [run, bind_eq, pure_eq, hi, Bool.false_eq_true, ↓reduceIte, M.bind_pure_left,
      M.bind_getSt, ha2]
  · intro hne
    simp only [run, bind_eq, M.bind, loadArticles_cached_run env s hne]
    simp only [getSt, call]
    cases env.selectRun s.trace Menu.selectArticle (1 + s.currentProduct.Articles.length) with
    | error e => simp [checked, M.bind, emit, exitNow]
    | ok index => simp [checked, M.pure]

/-- Witness for C10: a prompt that always answers with the first item. -/
theorem articleMenu_transitions_witness :
    (∀ h m k i, firstItemEnv.selectRun h m k = Except.ok i → 0 ≤ i ∧ i < (k : Int)) ∧
    run { columnOutputType := 1 } firstItemEnv 1 (Fn.handleSelectArticle 0) loadedState
      = run { columnOutputType := 1 } firstItemEnv 0 Fn.productOps loadedState := by
  have hsel : ∀ h m k i, firstItemEnv.selectRun h m k = Except.ok i → 0 ≤ i ∧ i < (k : Int) := by
    intro h m k i hi
    simp only [firstItemEnv] at hi
    split at hi
    · cases hi
    · cases hi
      constructor
      · exact le_refl _
      · omega
  exact ⟨hsel, (articleMenu_transitions { columnOutputType := 1 } firstItemEnv hsel 0 loadedState).1⟩


/-- C11: `getLesson` after grouping.  When `loadArticles` has grouped a listing whose detail
records carry the ids of the listing entries, the article ids of the lessons are the ids of the
listing, and `getLesson(aid)` succeeds for every id of the listing with a lesson of the product
that holds an article with that id.  When the ids of the listing are pairwise distinct,
`getLesson` of an article's id is the very lesson that holds the article, so `downloadArticle`
creates and uses the chapter directory `chapterDirOf` of that lesson, the same directory that
the loop of download-all uses for the lesson.  For an id that occurs in no lesson, `getLesson`
returns the error "not found". -/
theorem getLesson_after_grouping (cfg : Config) (env : Env) (s : St) (articles : List Article)
    (d : Int → ArticleDetail) (projectDir : String)
    (hA : s.currentProduct.Articles = []) (hL : s.currentProduct.Lessons = [])
    (hlist : env.postV1ColumnArticles (s.trace ++ [Event.spinner true])
      (toString s.currentProduct.ID) = Except.ok articles)
    (hdet : ∀ h aid, env.postV3ArticleInfo h aid = Except.ok (d aid))
    (hid : ∀ a ∈ articles, (d a.AID).ID = a.AID) :
    let s1 := (loadArticles env s).2
    let lessons := s1.currentProduct.Lessons
    lessonIds lessons = articles.map (fun a => a.AID) ∧
    (∀ a ∈ articles, ∃ l, getLesson lessons a.AID = Except.ok l ∧ l ∈ lessons ∧
      ∃ x ∈ l.Articles, x.ArticleID = a.AID) ∧
    ((articles.map (fun a => a.AID)).Nodup → ∀ l ∈ lessons, ∀ x ∈ l.Articles,
      getLesson lessons x.ArticleID = Except.ok l ∧
      ∀ article : Article, article.AID = x.ArticleID →
        downloadArticle cfg env article projectDir s1 =
          match env.mkdirAll s1.trace (chapterDirOf env projectDir l) with
          | some e => (Outcome.exited, { s1 with trace := s1.trace ++
              [Event.mkdirAll (chapterDirOf env projectDir l), Event.exit e] })
          | none =>
            (if isText s1.currentProduct then
              downloadArticleText cfg env article (chapterDirOf env projectDir l)
            else if isVideo s1.currentProduct then
              downloadArticleVideoBranch cfg env article (chapterDirOf env projectDir l)
            else M.pure ())
              { s1 with trace := s1.trace ++ [Event.mkdirAll (chapterDirOf env projectDir l)] }) ∧
    (∀ (l : Lesson) (ls : List Lesson) (downloaded : Presence) (i : Nat),
      textLessonsLoop cfg env downloaded projectDir i (l :: ls) =
        M.bind getSt (fun st =>
          M.bind (emit (Event.reportChapter st.currentProduct.Total i l.ChapterName)) (fun _ =>
            M.bind (call (Event.mkdirAll (chapterDirOf env projectDir l))
              (fun h => env.mkdirAll h (chapterDirOf env projectDir l))) (fun err =>
              M.bind (checkError err) (fun _ =>
                M.bind (textArticlesLoop cfg env downloaded
                  (env.filenamify (toString l.IndexNo ++ "." ++ l.ChapterName))
                  (chapterDirOf env projectDir l) i l.Articles) (fun i =>
                  textLessonsLoop cfg env downloaded projectDir i ls)))))) ∧
    (∀ aid, (∀ l ∈ lessons, ∀ x ∈ l.Articles, x.ArticleID ≠ aid) →
      getLesson lessons aid = Except.error "not found") := by
  intro s1 lessons
  have hload := loadArticles_result env s articles d hA hL hlist hdet
  have hLs : lessons = runLessons 0 (chapterRuns (articles.map (fun a => d a.AID))) := by
    simp only [lessons, s1, hload]
  have hids : lessonIds lessons = articles.map (fun a => a.AID) := by
    rw [hLs, lessonIds_runLessons, chapterRuns_flatten, List.map_map]
    exact List.map_congr_left (fun a ha => hid a ha)
  refine ⟨hids, ?_, ?_, ?_, ?_⟩
  · intro a ha
    have hmem : a.AID ∈ lessonIds lessons := by
      rw [hids]; exact List.mem_map.2 ⟨a, ha, rfl⟩
    obtain ⟨l, hl⟩ := getLesson_found lessons a.AID ((mem_lessonIds lessons _).1 hmem)
    obtain ⟨h1, h2⟩ := getLesson_ok lessons a.AID l hl
    exact ⟨l, hl, h1, h2⟩
  · intro hnd l hl x hx
    have hg : getLesson lessons x.ArticleID = Except.ok l :=
      getLesson_unique lessons (by rw [hids]; exact hnd) l hl x hx
    refine ⟨hg, ?_⟩
    intro article ha
    exact downloadArticle_dir cfg env article projectDir s1 l (by rw [ha]; exact hg)
  · intro l ls downloaded i
    rfl
  · intro aid h
    exact getLesson_not_found lessons aid h

/-- Witness for C11: the listing of six articles; article 4 is found in a lesson
that holds it. -/
theorem getLesson_after_grouping_witness :
    (∀ a ∈ sixArticles, (sixDetail a.AID).ID = a.AID) ∧
    ∃ l, getLesson (loadArticles sixEnv {}).2.currentProduct.Lessons 4 = Except.ok l ∧
      l ∈ (loadArticles sixEnv {}).2.currentProduct.Lessons ∧
      ∃ x ∈ l.Articles, x.ArticleID = 4 :=
  ⟨fun _ _ => rfl,
    (getLesson_after_grouping { columnOutputType := 1 } sixEnv {} sixArticles sixDetail "r"
      rfl rfl rfl (fun _ _ => rfl) (fun _ _ => rfl)).2.1 ⟨4, "a4"⟩ (by decide)⟩


end Geektime
